import Mathlib

/-!
# Verification of the OpenAgent agent execution core

Shallow embedding of the OpenAgent backend (Node.js) in Lean 4, together with
proofs about the properties stated in its specification.

Embedded components:
* the swarm scheduler `executeSwarm` and `synthesize`
  (src/backend/src/orchestrator.js);
* the shell safety gate `isDangerous` / `runCommand`
  (src/backend/src/tools/terminal.js);
* the single-agent chat loops of the two backend servers
  (src/backend/src/server.js `/chat` and the `/api/chat` server);
* the capability dispatchers (`executeToolCall` of the `/api/chat` server and
  `executeTool` of src/backend/src/server.js);
* the rich filesystem `writeFile` (src/backend/src/tools/filesystem.js).

External effects (the Ollama model, the OS filesystem, process spawning and
the network) are modelled as explicit oracle parameters; JavaScript promise
interleavings are modelled by one sequential serialization, which is faithful
here because each shared cell is written by exactly one logical task.
-/

set_option maxHeartbeats 1000000

namespace OpenAgent

/-! ## Task model (orchestrator.js)

A task as produced by `decompose`: `{id, description, tool, args, depends_on}`.
Tool arguments are never inspected by the scheduler, so they are kept as an
opaque string. -/

structure Task where
  id : Nat
  description : String
  tool : String
  args : String
  depends_on : List Nat
deriving DecidableEq, Repr

/-- The per-task entry written into `results`: either
`{success: true, result}` or `{success: false, error}` (orchestrator.js
lines 87 and 93). `V` is the type of values produced by the tool executor. -/
inductive TaskRes (V : Type) where
  | ok (v : V)
  | err (e : String)
deriving DecidableEq, Repr

/-- The `success` flag of a recorded task result. -/
def TaskRes.success {V : Type} : TaskRes V → Bool
  | .ok _ => true
  | .err _ => false

/-- `toolExecutor(task.tool, task.args)` either resolves with a value or
throws; the thrown error is recorded as `{success: false, error}`. -/
def mkRes {V : Type} (exec : String → String → Except String V) (t : Task) :
    TaskRes V :=
  match exec t.tool t.args with
  | Except.ok v => TaskRes.ok v
  | Except.error e => TaskRes.err e

/-- Assignment `results[k] = r` on the results object, modelled as an
association list keyed by task id (replace the binding if present, append
otherwise). -/
def setRes {V : Type} (l : List (Nat × TaskRes V)) (k : Nat) (r : TaskRes V) :
    List (Nat × TaskRes V) :=
  match l with
  | [] => [(k, r)]
  | (k', r') :: rest => if k' = k then (k, r) :: rest else (k', r') :: setRes rest k r

/-- Lookup `results[k]` on the results object. -/
def findRes {V : Type} (l : List (Nat × TaskRes V)) (k : Nat) : Option (TaskRes V) :=
  match l with
  | [] => none
  | (k', r) :: rest => if k' = k then some r else findRes rest k

/-- The ids of a list of tasks. -/
def idsOf (l : List Task) : List Nat := l.map Task.id

/-- `pending.findIndex(t => t.id === task.id)` followed by `splice(idx, 1)`:
remove the first task with the given id, leave the list unchanged when no
task has that id (orchestrator.js lines 107-110). -/
def removeFirstId (i : Nat) : List Task → List Task
  | [] => []
  | t :: ts => if t.id = i then ts else t :: removeFirstId i ts

/-- `task.depends_on.every(dep => completed.has(dep))`: the readiness test of
the wavefront filter (orchestrator.js line 68). -/
def ready (completed : List Nat) (t : Task) : Bool :=
  t.depends_on.all (fun d => completed.contains d)

/-- Everything `executeSwarm` has accumulated when its loop exits.  The
JavaScript function returns only `results`; `completed`, the final `pending`
list and the dispatch `trace` (each executed wavefront paired with the
`completed` set at the moment that wavefront was selected, in chronological
order) are internal state exposed here so that scheduling properties can be
stated. -/
structure SwarmOut (V : Type) where
  results : List (Nat × TaskRes V)
  completed : List Nat
  pending : List Task
  trace : List (List Task × List Nat)
deriving DecidableEq, Repr

/-- The wavefront loop of `executeSwarm` (orchestrator.js lines 65-111):
while tasks are pending, select the runnable ones (all dependencies
completed); if none is runnable, break (cycle or missing dependency);
otherwise run them all, record a result and mark each completed whether its
execution succeeded or threw, and remove them from `pending`.

`fuel` bounds the number of loop iterations; `executeSwarm` supplies
`tasks.length`, which is proved sufficient below (each iteration removes at
least one pending task). -/
def swarmLoop {V : Type} (exec : String → String → Except String V) :
    Nat → List Task → List Nat → List (Nat × TaskRes V) →
    List (List Task × List Nat) → Option (SwarmOut V)
  | _, [], completed, results, trace =>
      some ⟨results, completed, [], trace.reverse⟩
  | 0, _ :: _, _, _, _ => none
  | fuel + 1, t :: ts, completed, results, trace =>
      let pending := t :: ts
      let runnable := pending.filter (ready completed)
      if runnable = [] then
        some ⟨results, completed, pending, trace.reverse⟩
      else
        swarmLoop exec fuel
          (runnable.foldl (fun acc u => removeFirstId u.id acc) pending)
          (completed ++ idsOf runnable)
          (runnable.foldl (fun acc u => setRes acc u.id (mkRes exec u)) results)
          ((runnable, completed) :: trace)

/-- `executeSwarm(tasks, toolExecutor, onProgress)`: run the wavefront loop
from the initial state (`results = {}`, `completed = {}`, `pending` = all
tasks).  Progress callbacks are pure observation and are subsumed by the
returned trace. -/
def executeSwarm {V : Type} (exec : String → String → Except String V)
    (tasks : List Task) : Option (SwarmOut V) :=
  swarmLoop exec tasks.length tasks [] [] []

/-! ### Basic lemmas about the scheduler state operations -/

theorem mem_removeFirstId {t : Task} {i : Nat} :
    ∀ {l : List Task}, t ∈ removeFirstId i l → t ∈ l := by
  intro l
  induction l with
  | nil => intro h; simp [removeFirstId] at h
  | cons u us ih =>
      intro h
      simp only [removeFirstId] at h
      by_cases hu : u.id = i
      · simp [hu] at h; exact List.mem_cons_of_mem _ h
      · simp [hu] at h
        rcases h with h | h
        · exact h ▸ List.mem_cons_self _ _
        · exact List.mem_cons_of_mem _ (ih h)

theorem removeFirstId_length_le (i : Nat) :
    ∀ l : List Task, (removeFirstId i l).length ≤ l.length := by
  intro l
  induction l with
  | nil => simp [removeFirstId]
  | cons u us ih =>
      simp only [removeFirstId]
      by_cases hu : u.id = i
      · simp only [hu, if_true, List.length_cons]; omega
      · simp only [hu, if_false, List.length_cons]; omega

theorem removeFirstId_length_lt {i : Nat} :
    ∀ {l : List Task}, (∃ t ∈ l, t.id = i) →
      (removeFirstId i l).length < l.length := by
  intro l
  induction l with
  | nil => rintro ⟨t, ht, _⟩; simp at ht
  | cons u us ih =>
      rintro ⟨t, ht, hti⟩
      simp only [removeFirstId]
      by_cases hu : u.id = i
      · simp [hu]
      · simp only [hu, if_false, List.length_cons]
        have : t ∈ us := by
          rcases List.mem_cons.1 ht with h | h
          · exact absurd (h ▸ hti) hu
          · exact h
        have := ih ⟨t, this, hti⟩
        omega

theorem foldl_remove_length_le (rs : List Task) :
    ∀ acc : List Task,
      (rs.foldl (fun a u => removeFirstId u.id a) acc).length ≤ acc.length := by
  induction rs with
  | nil => intro acc; simp
  | cons r rs ih =>
      intro acc
      simp only [List.foldl_cons]
      exact le_trans (ih _) (removeFirstId_length_le _ _)

theorem mem_foldl_remove {t : Task} (rs : List Task) :
    ∀ {acc : List Task}, t ∈ rs.foldl (fun a u => removeFirstId u.id a) acc →
      t ∈ acc := by
  induction rs with
  | nil => intro acc h; simpa using h
  | cons r rs ih =>
      intro acc h
      simp only [List.foldl_cons] at h
      exact mem_removeFirstId (ih h)

theorem findRes_setRes {V : Type} (k : Nat) (r : TaskRes V) :
    ∀ (l : List (Nat × TaskRes V)) (j : Nat),
      findRes (setRes l k r) j = if j = k then some r else findRes l j := by
  intro l
  induction l with
  | nil =>
      intro j
      simp only [setRes, findRes]
      by_cases hj : j = k
      · simp [hj]
      · rw [if_neg (fun h => hj h.symm), if_neg hj]
  | cons p rest ih =>
      intro j
      obtain ⟨k', r'⟩ := p
      simp only [setRes]
      by_cases hk : k' = k
      · subst hk
        simp only [if_pos rfl, findRes]
        by_cases hj : j = k'
        · subst hj; rw [if_pos rfl, if_pos rfl]
        · rw [if_neg (fun h => hj h.symm), if_neg hj,
              if_neg (fun h => hj h.symm)]
      · simp only [if_neg hk, findRes]
        by_cases hj : j = k
        · subst hj
          rw [if_pos rfl, if_neg (fun h : k' = j => hk h), ih, if_pos rfl]
        · rw [if_neg hj, ih, if_neg hj]

theorem mem_removeFirstId_of_ne {t : Task} {i : Nat} :
    ∀ {l : List Task}, t ∈ l → t.id ≠ i → t ∈ removeFirstId i l := by
  intro l
  induction l with
  | nil => intro h; simp at h
  | cons u us ih =>
      intro h hne
      simp only [removeFirstId]
      by_cases hu : u.id = i
      · rcases List.mem_cons.1 h with h | h
        · exact absurd (h ▸ hu) hne
        · simp [hu, h]
      · rcases List.mem_cons.1 h with h | h
        · simp [hu, h]
        · simp only [hu, if_false]
          exact List.mem_cons_of_mem _ (ih h hne)

theorem idsOf_removeFirstId_sublist (i : Nat) :
    ∀ l : List Task, List.Sublist (idsOf (removeFirstId i l)) (idsOf l) := by
  intro l
  induction l with
  | nil => simp [removeFirstId, idsOf]
  | cons u us ih =>
      simp only [removeFirstId]
      by_cases hu : u.id = i
      · simp only [hu, if_true, idsOf, List.map_cons]
        exact List.sublist_cons_of_sublist _ (List.Sublist.refl _)
      · simp only [hu, if_false, idsOf, List.map_cons]
        exact List.Sublist.cons₂ _ ih

theorem nodup_removeFirstId {i : Nat} {l : List Task}
    (h : (idsOf l).Nodup) : (idsOf (removeFirstId i l)).Nodup :=
  (idsOf_removeFirstId_sublist i l).nodup h

theorem not_mem_removeFirstId_self {i : Nat} :
    ∀ {l : List Task}, (idsOf l).Nodup →
      ∀ u ∈ removeFirstId i l, u.id ≠ i := by
  intro l
  induction l with
  | nil => intro _ u hu; simp [removeFirstId] at hu
  | cons t ts ih =>
      intro hnd u hu
      simp only [idsOf, List.map_cons, List.nodup_cons] at hnd
      obtain ⟨hts, hnd'⟩ := hnd
      simp only [removeFirstId] at hu
      by_cases ht : t.id = i
      · rw [if_pos ht] at hu
        intro hui
        exact hts (ht ▸ hui ▸ List.mem_map_of_mem Task.id hu)
      · rcases List.mem_cons.1 (by simpa [ht] using hu) with h | h
        · exact h ▸ ht
        · exact ih hnd' u h

theorem nodup_foldl_remove :
    ∀ (rs : List Task) {acc : List Task}, (idsOf acc).Nodup →
      (idsOf (rs.foldl (fun a u => removeFirstId u.id a) acc)).Nodup := by
  intro rs
  induction rs with
  | nil => intro acc h; simpa using h
  | cons r rs ih =>
      intro acc h
      simp only [List.foldl_cons]
      exact ih (nodup_removeFirstId h)

theorem foldl_remove_id_not_mem :
    ∀ (rs : List Task) {acc : List Task}, (idsOf acc).Nodup →
      ∀ u ∈ rs.foldl (fun a v => removeFirstId v.id a) acc, u.id ∉ idsOf rs := by
  intro rs
  induction rs with
  | nil => intro acc _ u _; simp [idsOf]
  | cons r rs ih =>
      intro acc hnd u hu
      simp only [List.foldl_cons] at hu
      have h1 : u.id ∉ idsOf rs := ih (nodup_removeFirstId hnd) u hu
      have h2 : u ∈ removeFirstId r.id acc := mem_foldl_remove rs hu
      have h3 : u.id ≠ r.id := not_mem_removeFirstId_self hnd u h2
      simp only [idsOf, List.map_cons, List.mem_cons]
      rintro (h | h)
      · exact h3 h
      · exact h1 h

theorem mem_foldl_remove_of_not_mem :
    ∀ (rs : List Task) {acc : List Task} {t : Task}, t ∈ acc →
      t.id ∉ idsOf rs → t ∈ rs.foldl (fun a v => removeFirstId v.id a) acc := by
  intro rs
  induction rs with
  | nil => intro acc t h _; simpa using h
  | cons r rs ih =>
      intro acc t h hni
      simp only [idsOf, List.map_cons, List.mem_cons, not_or] at hni
      simp only [List.foldl_cons]
      exact ih (mem_removeFirstId_of_ne h hni.1) (by
        simpa [idsOf] using hni.2)

theorem find?_id_eq_none {j : Nat} :
    ∀ {rs : List Task}, j ∉ idsOf rs →
      rs.find? (fun u => u.id == j) = none := by
  intro rs
  induction rs with
  | nil => intro _; rfl
  | cons r rs ih =>
      intro h
      simp only [idsOf, List.map_cons, List.mem_cons, not_or] at h
      rw [List.find?_cons]
      have : (r.id == j) = false := by
        simp only [beq_eq_false_iff_ne, ne_eq]
        exact fun hr => h.1 hr.symm
      rw [this]
      exact ih (by simpa [idsOf] using h.2)

theorem find?_id_eq_some_self {t : Task} :
    ∀ {rs : List Task}, (idsOf rs).Nodup → t ∈ rs →
      rs.find? (fun u => u.id == t.id) = some t := by
  intro rs
  induction rs with
  | nil => intro _ h; simp at h
  | cons r rs ih =>
      intro hnd h
      simp only [idsOf, List.map_cons, List.nodup_cons] at hnd
      rw [List.find?_cons]
      rcases List.mem_cons.1 h with h | h
      · subst h; simp
      · have hne : (r.id == t.id) = false := by
          simp only [beq_eq_false_iff_ne, ne_eq]
          intro hr
          exact hnd.1 (hr ▸ List.mem_map_of_mem Task.id h)
        rw [hne]
        exact ih hnd.2 h

theorem findRes_foldl_set {V : Type} (exec : String → String → Except String V) :
    ∀ (rs : List Task), (idsOf rs).Nodup →
      ∀ (l : List (Nat × TaskRes V)) (j : Nat),
        findRes (rs.foldl (fun acc u => setRes acc u.id (mkRes exec u)) l) j =
          match rs.find? (fun u => u.id == j) with
          | some t => some (mkRes exec t)
          | none => findRes l j := by
  intro rs
  induction rs with
  | nil => intro _ l j; rfl
  | cons r rs ih =>
      intro hnd l j
      simp only [idsOf, List.map_cons, List.nodup_cons] at hnd
      simp only [List.foldl_cons]
      rw [ih hnd.2]
      rw [List.find?_cons]
      by_cases hj : r.id = j
      · subst hj
        simp only [beq_self_eq_true]
        rw [find?_id_eq_none (by simpa [idsOf] using hnd.1)]
        simp [findRes_setRes]
      · have : (r.id == j) = false := by simpa using hj
        rw [this]
        cases hfind : rs.find? (fun u => u.id == j) with
        | some t => rfl
        | none => rw [findRes_setRes, if_neg (fun h => hj h.symm)]

theorem id_inj {G : List Task} (hG : (idsOf G).Nodup) :
    ∀ {a : Task}, a ∈ G → ∀ {b : Task}, b ∈ G → a.id = b.id → a = b := by
  intro a ha b hb hab
  exact List.inj_on_of_nodup_map hG ha hb hab

/-- `ready completed t = true` means every dependency of `t` is in
`completed`. -/
theorem mem_of_ready {c : List Nat} {t : Task} (h : ready c t = true) :
    ∀ d ∈ t.depends_on, d ∈ c := by
  intro d hd
  simp only [ready, List.all_eq_true] at h
  simpa using h d hd

theorem ready_of_mem {c : List Nat} {t : Task}
    (h : ∀ d ∈ t.depends_on, d ∈ c) : ready c t = true := by
  simp only [ready, List.all_eq_true]
  intro d hd
  simpa using h d hd

/-- Loop invariant of `executeSwarm` relating the scheduler state to the
original task list `G`: pending tasks come from `G` and have distinct ids, a
task of `G` is pending exactly when it is not completed, the results object
has an entry exactly for the completed ids, and the entry of a completed
task is the one its executor call produced. -/
structure SwarmInv {V : Type} (exec : String → String → Except String V)
    (G pending : List Task) (completed : List Nat)
    (results : List (Nat × TaskRes V)) : Prop where
  sub : ∀ t ∈ pending, t ∈ G
  nodupP : (idsOf pending).Nodup
  cover : ∀ t ∈ G, (t ∈ pending ↔ t.id ∉ completed)
  keys : ∀ i : Nat, i ∈ completed ↔ ∃ r, findRes results i = some r
  val : ∀ t ∈ G, t.id ∈ completed → findRes results t.id = some (mkRes exec t)

/-- Soundness of the dispatch trace: every task of a recorded wavefront had
all of its dependencies inside the `completed` snapshot taken when that
wavefront was selected, every dispatched task has since been marked
completed, and every snapshot is contained in the current `completed`
set. -/
def TraceOK (completed : List Nat) (trace : List (List Task × List Nat)) : Prop :=
  ∀ wc ∈ trace,
    (∀ t ∈ wc.1, (∀ d ∈ t.depends_on, d ∈ wc.2) ∧ t.id ∈ completed) ∧
    (∀ i ∈ wc.2, i ∈ completed)

theorem swarmLoop_nil {V : Type} (exec : String → String → Except String V)
    (fuel : Nat) (completed : List Nat) (results : List (Nat × TaskRes V))
    (trace : List (List Task × List Nat)) :
    swarmLoop exec fuel [] completed results trace =
      some ⟨results, completed, [], trace.reverse⟩ := by
  cases fuel <;> rfl

theorem swarmLoop_cons {V : Type} (exec : String → String → Except String V)
    (fuel : Nat) (t : Task) (ts : List Task) (completed : List Nat)
    (results : List (Nat × TaskRes V)) (trace : List (List Task × List Nat)) :
    swarmLoop exec (fuel + 1) (t :: ts) completed results trace =
      if (t :: ts).filter (ready completed) = [] then
        some ⟨results, completed, t :: ts, trace.reverse⟩
      else
        swarmLoop exec fuel
          (((t :: ts).filter (ready completed)).foldl
            (fun acc u => removeFirstId u.id acc) (t :: ts))
          (completed ++ idsOf ((t :: ts).filter (ready completed)))
          (((t :: ts).filter (ready completed)).foldl
            (fun acc u => setRes acc u.id (mkRes exec u)) results)
          (((t :: ts).filter (ready completed), completed) :: trace) := rfl

/-- Master lemma about the wavefront loop: starting from an invariant state
with enough fuel (`pending.length` iterations always suffice), the loop
returns, the invariant and trace soundness are preserved, `completed` only
grows, any property `P` that no ready task can have (given a `P`-free
completed set) remains absent from `completed`, and on exit either nothing
is pending or nothing pending is ready. -/
theorem swarmLoop_spec {V : Type} (exec : String → String → Except String V)
    (G : List Task) (hG : (idsOf G).Nodup) (P : Nat → Prop)
    (hP : ∀ completed : List Nat, (∀ i ∈ completed, ¬ P i) →
      ∀ t ∈ G, ready completed t = true → ¬ P t.id) :
    ∀ (fuel : Nat) (pending : List Task) (completed : List Nat)
      (results : List (Nat × TaskRes V)) (trace : List (List Task × List Nat)),
      pending.length ≤ fuel →
      SwarmInv exec G pending completed results →
      TraceOK completed trace →
      (∀ i ∈ completed, ¬ P i) →
      ∃ out, swarmLoop exec fuel pending completed results trace = some out ∧
        SwarmInv exec G out.pending out.completed out.results ∧
        TraceOK out.completed out.trace ∧
        (∀ i ∈ completed, i ∈ out.completed) ∧
        (∀ i ∈ out.completed, ¬ P i) ∧
        (out.pending = [] ∨ out.pending.filter (ready out.completed) = []) := by
  intro fuel
  induction fuel with
  | zero =>
      intro pending completed results trace hlen hinv htr hP0
      have hpe : pending = [] := List.eq_nil_of_length_eq_zero (Nat.le_zero.mp hlen)
      subst hpe
      refine ⟨⟨results, completed, [], trace.reverse⟩, swarmLoop_nil _ _ _ _ _,
        hinv, ?_, fun i hi => hi, hP0, Or.inl rfl⟩
      intro wc hwc
      exact htr wc (List.mem_reverse.1 hwc)
  | succ fuel ih =>
      intro pending completed results trace hlen hinv htr hP0
      cases pending with
      | nil =>
          refine ⟨⟨results, completed, [], trace.reverse⟩, swarmLoop_nil _ _ _ _ _,
            hinv, ?_, fun i hi => hi, hP0, Or.inl rfl⟩
          intro wc hwc
          exact htr wc (List.mem_reverse.1 hwc)
      | cons t ts =>
          rw [swarmLoop_cons]
          by_cases hempty : (t :: ts).filter (ready completed) = []
          · rw [if_pos hempty]
            refine ⟨⟨results, completed, t :: ts, trace.reverse⟩, rfl,
              hinv, ?_, fun i hi => hi, hP0, Or.inr hempty⟩
            intro wc hwc
            exact htr wc (List.mem_reverse.1 hwc)
          · rw [if_neg hempty]
            set runnable := (t :: ts).filter (ready completed) with hrundef
            have hsubrun : ∀ u ∈ runnable, u ∈ t :: ts :=
              fun u hu => (List.mem_filter.1 hu).1
            have hready : ∀ u ∈ runnable, ready completed u = true :=
              fun u hu => (List.mem_filter.1 hu).2
            have hrsub : List.Sublist runnable (t :: ts) := List.filter_sublist _
            have hrnodup : (idsOf runnable).Nodup :=
              (hrsub.map Task.id).nodup hinv.nodupP
            -- fuel bound for the recursive call
            obtain ⟨r, rs, hrr⟩ := List.exists_cons_of_ne_nil hempty
            have hrmem : r ∈ t :: ts := hsubrun r (by rw [hrr]; exact List.mem_cons_self _ _)
            have hlen' :
                ((runnable.foldl (fun acc u => removeFirstId u.id acc) (t :: ts)).length)
                  ≤ fuel := by
              have h1 := foldl_remove_length_le rs (removeFirstId r.id (t :: ts))
              have h2 := removeFirstId_length_lt (l := t :: ts) ⟨r, hrmem, rfl⟩
              rw [hrr]
              simp only [List.foldl_cons]
              simp only [List.length_cons] at hlen h2 ⊢
              omega
            -- the new invariant
            have hinv' : SwarmInv exec G
                (runnable.foldl (fun acc u => removeFirstId u.id acc) (t :: ts))
                (completed ++ idsOf runnable)
                (runnable.foldl (fun acc u => setRes acc u.id (mkRes exec u)) results) := by
              refine ⟨?_, ?_, ?_, ?_, ?_⟩
              · intro u hu
                exact hinv.sub u (mem_foldl_remove _ hu)
              · exact nodup_foldl_remove runnable hinv.nodupP
              · intro u huG
                constructor
                · intro hu
                  have h1 := mem_foldl_remove _ hu
                  have h2 := foldl_remove_id_not_mem runnable hinv.nodupP u hu
                  have h3 : u.id ∉ completed := (hinv.cover u huG).1 h1
                  rw [List.mem_append]
                  rintro (h | h)
                  · exact h3 h
                  · exact h2 h
                · intro hnc
                  rw [List.mem_append] at hnc
                  push_neg at hnc
                  exact mem_foldl_remove_of_not_mem runnable
                    ((hinv.cover u huG).2 hnc.1) hnc.2
              · intro i
                rw [findRes_foldl_set exec runnable hrnodup]
                constructor
                · intro hi
                  rcases List.mem_append.1 hi with h | h
                  · obtain ⟨r0, hr0⟩ := (hinv.keys i).1 h
                    cases hfind : runnable.find? (fun u => u.id == i) with
                    | none => exact ⟨r0, hr0⟩
                    | some v => exact ⟨mkRes exec v, rfl⟩
                  · obtain ⟨u, hu, hui⟩ := List.mem_map.1 h
                    have := find?_id_eq_some_self hrnodup hu
                    rw [hui] at this
                    exact ⟨mkRes exec u, by rw [this]⟩
                · rintro ⟨r0, hr0⟩
                  cases hfind : runnable.find? (fun u => u.id == i) with
                  | some v =>
                      have hv := List.mem_of_find?_eq_some hfind
                      have hvi : v.id = i := by
                        have := List.find?_some hfind
                        simpa using this
                      exact List.mem_append.2 (Or.inr
                        (hvi ▸ List.mem_map_of_mem Task.id hv))
                  | none =>
                      rw [hfind] at hr0
                      exact List.mem_append.2 (Or.inl ((hinv.keys i).2 ⟨r0, hr0⟩))
              · intro u huG hu
                rw [findRes_foldl_set exec runnable hrnodup]
                by_cases hin : u.id ∈ idsOf runnable
                · obtain ⟨v, hv, hvi⟩ := List.mem_map.1 hin
                  have hveq : v = u := id_inj hG (hinv.sub v (hsubrun v hv)) huG hvi
                  rw [find?_id_eq_some_self hrnodup (hveq ▸ hv)]
                · rw [find?_id_eq_none hin]
                  have : u.id ∈ completed := by
                    rcases List.mem_append.1 hu with h | h
                    · exact h
                    · exact absurd h hin
                  exact hinv.val u huG this
            -- the new trace soundness
            have htr' : TraceOK (completed ++ idsOf runnable)
                ((runnable, completed) :: trace) := by
              intro wc hwc
              rcases List.mem_cons.1 hwc with h | h
              · subst h
                refine ⟨?_, fun i hi => List.mem_append.2 (Or.inl hi)⟩
                intro u hu
                exact ⟨mem_of_ready (hready u hu),
                  List.mem_append.2 (Or.inr (List.mem_map_of_mem Task.id hu))⟩
              · obtain ⟨h1, h2⟩ := htr wc h
                exact ⟨fun u hu => ⟨(h1 u hu).1,
                    List.mem_append.2 (Or.inl (h1 u hu).2)⟩,
                  fun i hi => List.mem_append.2 (Or.inl (h2 i hi))⟩
            -- the predicate stays absent from completed
            have hP0' : ∀ i ∈ completed ++ idsOf runnable, ¬ P i := by
              intro i hi
              rcases List.mem_append.1 hi with h | h
              · exact hP0 i h
              · obtain ⟨u, hu, hui⟩ := List.mem_map.1 h
                exact hui ▸ hP completed hP0 u (hinv.sub u (hsubrun u hu))
                  (hready u hu)
            obtain ⟨out, hout, hi1, hi2, hi3, hi4, hi5⟩ :=
              ih _ _ _ (((t :: ts).filter (ready completed), completed) :: trace)
                hlen' hinv' htr' hP0'
            exact ⟨out, hout, hi1, hi2,
              fun i hi => hi3 i (List.mem_append.2 (Or.inl hi)), hi4, hi5⟩

/-- Acyclicity of a task graph, stated as the existence of a topological
ranking: every dependency edge goes to a strictly smaller rank.  For a
finite graph this is equivalent to the absence of directed dependency
cycles. -/
def Acyclic (G : List Task) : Prop :=
  ∃ f : Nat → Nat, ∀ t ∈ G, ∀ d ∈ t.depends_on, f d < f t.id

/-- A task id whose dependencies can all (transitively) be satisfied: the
task exists in the graph and each of its dependencies is resolvable. -/
inductive Resolvable (G : List Task) : Nat → Prop where
  | intro (t : Task) (ht : t ∈ G) (h : ∀ d ∈ t.depends_on, Resolvable G d) :
      Resolvable G t.id

theorem resolvable_of_acyclic {G : List Task}
    (hdeps : ∀ t ∈ G, ∀ d ∈ t.depends_on, ∃ u ∈ G, u.id = d)
    (hacy : Acyclic G) : ∀ t ∈ G, Resolvable G t.id := by
  obtain ⟨f, hf⟩ := hacy
  suffices h : ∀ n, ∀ t ∈ G, f t.id < n → Resolvable G t.id by
    intro t ht
    exact h (f t.id + 1) t ht (Nat.lt_succ_self _)
  intro n
  induction n with
  | zero => intro t ht h; omega
  | succ n ih =>
      intro t ht hlt
      refine Resolvable.intro t ht ?_
      intro d hd
      obtain ⟨u, hu, hud⟩ := hdeps t ht d hd
      have hfd : f u.id < n := by
        have := hf t ht d hd
        rw [hud]
        omega
      exact hud ▸ ih u hu hfd

/-- On loop exit, every resolvable task id has been completed. -/
theorem resolvable_mem_completed {V : Type}
    {exec : String → String → Except String V} {G : List Task}
    {out : SwarmOut V}
    (hinv : SwarmInv exec G out.pending out.completed out.results)
    (hexit : out.pending = [] ∨ out.pending.filter (ready out.completed) = []) :
    ∀ i, Resolvable G i → i ∈ out.completed := by
  intro i h
  induction h with
  | intro t ht hdeps ihdeps =>
      by_cases hc : t.id ∈ out.completed
      · exact hc
      · exfalso
        have hpend : t ∈ out.pending := (hinv.cover t ht).2 hc
        have hrdy : ready out.completed t = true :=
          ready_of_mem (fun d hd => ihdeps d hd)
        rcases hexit with h | h
        · rw [h] at hpend; simp at hpend
        · have : t ∈ out.pending.filter (ready out.completed) :=
            List.mem_filter.2 ⟨hpend, hrdy⟩
          rw [h] at this; simp at this

theorem swarmInv_init {V : Type} (exec : String → String → Except String V)
    (G : List Task) (hG : (idsOf G).Nodup) : SwarmInv exec G G [] [] := by
  refine ⟨fun t ht => ht, hG, ?_, ?_, ?_⟩
  · intro t ht; simp [ht]
  · intro i; simp [findRes]
  · intro t ht h; simp at h

/-- `executeSwarm`-level instance of the master lemma. -/
theorem executeSwarm_spec {V : Type} (exec : String → String → Except String V)
    (G : List Task) (hG : (idsOf G).Nodup) (P : Nat → Prop)
    (hP : ∀ completed : List Nat, (∀ i ∈ completed, ¬ P i) →
      ∀ t ∈ G, ready completed t = true → ¬ P t.id) :
    ∃ out, executeSwarm exec G = some out ∧
      SwarmInv exec G out.pending out.completed out.results ∧
      TraceOK out.completed out.trace ∧
      (∀ i ∈ out.completed, ¬ P i) ∧
      (out.pending = [] ∨ out.pending.filter (ready out.completed) = []) := by
  obtain ⟨out, hout, h1, h2, _, h4, h5⟩ :=
    swarmLoop_spec exec G hG P hP G.length G [] [] []
      (le_refl _) (swarmInv_init exec G hG)
      (fun wc hwc => absurd hwc (List.not_mem_nil wc))
      (fun i hi => absurd hi (List.not_mem_nil i))
  exact ⟨out, hout, h1, h2, h4, h5⟩

/-- C1: for every well-formed acyclic task graph, `executeSwarm` terminates
(returns), its results object has an entry for every task id, and every
dispatched wavefront task had all of its dependencies in the `completed`
snapshot at dispatch time, each such dependency having an entry in
results. -/
theorem executeSwarm_acyclic_complete {V : Type}
    (exec : String → String → Except String V) (tasks : List Task)
    (hnd : (idsOf tasks).Nodup)
    (hdeps : ∀ t ∈ tasks, ∀ d ∈ t.depends_on, ∃ u ∈ tasks, u.id = d)
    (hacy : Acyclic tasks) :
    ∃ out, executeSwarm exec tasks = some out ∧
      (∀ t ∈ tasks, ∃ r, findRes out.results t.id = some r) ∧
      (∀ wc ∈ out.trace, ∀ t ∈ wc.1, ∀ d ∈ t.depends_on,
        d ∈ wc.2 ∧ ∃ r, findRes out.results d = some r) := by
  obtain ⟨out, hout, hinv, htr, _, hexit⟩ :=
    executeSwarm_spec exec tasks hnd (fun _ => False)
      (fun _ _ _ _ _ h => h)
  refine ⟨out, hout, ?_, ?_⟩
  · intro t ht
    exact (hinv.keys t.id).1
      (resolvable_mem_completed hinv hexit t.id
        (resolvable_of_acyclic hdeps hacy t ht))
  · intro wc hwc t ht d hd
    obtain ⟨h1, h2⟩ := htr wc hwc
    have hdc : d ∈ wc.2 := (h1 t ht).1 d hd
    exact ⟨hdc, (hinv.keys d).1 (h2 d hdc)⟩

/-! ### Cyclic graphs (claim C2) -/

/-- Transitive dependency on the id set `S`: some task with this id has a
dependency in `S`, or a dependency that itself transitively requires `S`. -/
inductive ReqS (G : List Task) (S : List Nat) : Nat → Prop where
  | base (t : Task) (ht : t ∈ G) (d : Nat) (hd : d ∈ t.depends_on)
      (hS : d ∈ S) : ReqS G S t.id
  | step (t : Task) (ht : t ∈ G) (d : Nat) (hd : d ∈ t.depends_on)
      (hR : ReqS G S d) : ReqS G S t.id

/-- A nonempty id set forming a dependency cycle: every member is the id of
a task of the graph that has at least one dependency inside the set. -/
def CycleSubset (G : List Task) (S : List Nat) : Prop :=
  S ≠ [] ∧ ∀ s ∈ S, ∃ t ∈ G, t.id = s ∧ ∃ d ∈ t.depends_on, d ∈ S

/-- Ids that can never become ready: members of the cyclic set `S` and ids
transitively requiring a member of `S`. -/
def Blocked (G : List Task) (S : List Nat) (i : Nat) : Prop :=
  i ∈ S ∨ ReqS G S i

theorem reqS_inv {G : List Task} {S : List Nat} {i : Nat} (h : ReqS G S i) :
    ∃ t ∈ G, t.id = i ∧ ∃ d ∈ t.depends_on, (d ∈ S ∨ ReqS G S d) := by
  cases h with
  | base t ht d hd hS => exact ⟨t, ht, rfl, d, hd, Or.inl hS⟩
  | step t ht d hd hR => exact ⟨t, ht, rfl, d, hd, Or.inr hR⟩

theorem blocked_has_blocked_dep {G : List Task} {S : List Nat}
    (hG : (idsOf G).Nodup) (hS : CycleSubset G S) :
    ∀ t ∈ G, Blocked G S t.id → ∃ d ∈ t.depends_on, Blocked G S d := by
  intro t ht h
  rcases h with h | h
  · obtain ⟨u, hu, hus, d, hd, hdS⟩ := hS.2 t.id h
    have heq : u = t := id_inj hG hu ht hus
    subst heq
    exact ⟨d, hd, Or.inl hdS⟩
  · obtain ⟨u, hu, hui, d, hd, hor⟩ := reqS_inv h
    have heq : u = t := id_inj hG hu ht hui
    subst heq
    exact ⟨d, hd, hor⟩

/-- C2 (amended): for a well-formed graph with a dependency cycle among the
id set `S`, `executeSwarm` terminates, its results object has no entry for
any member of `S` nor for any id transitively requiring a member of `S`,
and every resolvable task (one none of whose transitive dependencies is
stuck) gets exactly the entry its executor call produces, as in the acyclic
case. -/
theorem executeSwarm_cycle_blocked {V : Type}
    (exec : String → String → Except String V) (tasks : List Task)
    (S : List Nat) (hnd : (idsOf tasks).Nodup) (hS : CycleSubset tasks S) :
    ∃ out, executeSwarm exec tasks = some out ∧
      (∀ i, Blocked tasks S i → findRes out.results i = none) ∧
      (∀ t ∈ tasks, Resolvable tasks t.id →
        findRes out.results t.id = some (mkRes exec t)) := by
  obtain ⟨out, hout, hinv, _, hfree, hexit⟩ :=
    executeSwarm_spec exec tasks hnd (Blocked tasks S)
      (by
        intro c hc t ht hr hb
        obtain ⟨d, hd, hdb⟩ := blocked_has_blocked_dep hnd hS t ht hb
        exact hc d (mem_of_ready hr d hd) hdb)
  refine ⟨out, hout, ?_, ?_⟩
  · intro i hb
    cases hfind : findRes out.results i with
    | none => rfl
    | some r => exact absurd hb (hfree i ((hinv.keys i).2 ⟨r, hfind⟩))
  · intro t ht hres
    exact hinv.val t ht (resolvable_mem_completed hinv hexit t.id hres)

/-! ### Concrete graphs for the C2 counterexample and the witnesses -/

/-- Two disjoint two-task dependency cycles: 1 ⇄ 2 and 3 ⇄ 4. -/
def cexG : List Task :=
  [⟨1, "a", "x", "", [2]⟩, ⟨2, "b", "x", "", [1]⟩,
   ⟨3, "c", "x", "", [4]⟩, ⟨4, "d", "x", "", [3]⟩]

def cexS : List Nat := [1, 2]

/-- A tool executor that always succeeds with value 0. -/
def exec0 : String → String → Except String Nat := fun _ _ => Except.ok 0

theorem cexG_req_aux : ∀ i, ReqS cexG cexS i → i = 3 ∨ i = 4 → False := by
  intro i h
  induction h with
  | base t ht d hd hS =>
      intro hi
      simp only [cexG, List.mem_cons, List.not_mem_nil, or_false] at ht
      rcases ht with rfl | rfl | rfl | rfl
      · simp at hi
      · simp at hi
      · simp at hd; subst hd; simp [cexS] at hS
      · simp at hd; subst hd; simp [cexS] at hS
  | step t ht d hd hR ih =>
      intro hi
      simp only [cexG, List.mem_cons, List.not_mem_nil, or_false] at ht
      rcases ht with rfl | rfl | rfl | rfl
      · simp at hi
      · simp at hi
      · simp at hd; subst hd; exact ih (Or.inr rfl)
      · simp at hd; subst hd; exact ih (Or.inl rfl)

/-- C2 counterexample: `cexG` contains a dependency cycle among
`cexS = [1, 2]`; task 3 is neither in `cexS` nor transitively requires a
member of `cexS`, yet `executeSwarm` terminates with no entry for task 3 in
its results (tasks 3 and 4 form a second, independent cycle) — refuting the
claim that every task outside `S` and its transitive requirers gets an
entry. -/
theorem executeSwarm_cycle_claim_counterexample :
    CycleSubset cexG cexS ∧ (3 : Nat) ∉ cexS ∧ ¬ ReqS cexG cexS 3 ∧
    (executeSwarm exec0 cexG).map (fun o => findRes o.results 3) =
      some none := by
  refine ⟨⟨by decide, by decide⟩, by decide, ?_, rfl⟩
  intro h
  exact cexG_req_aux 3 h (Or.inl rfl)

/-- A cycle 1 ⇄ 2 together with an independent task 3. -/
def cycG : List Task :=
  [⟨1, "a", "x", "", [2]⟩, ⟨2, "b", "x", "", [1]⟩, ⟨3, "c", "x", "", []⟩]

/-- Witness for the amended C2 theorem at a concrete graph. -/
theorem executeSwarm_cycle_blocked_witness :
    (idsOf cycG).Nodup ∧ CycleSubset cycG cexS ∧
    ∃ out, executeSwarm exec0 cycG = some out ∧
      (∀ i, Blocked cycG cexS i → findRes out.results i = none) ∧
      (∀ t ∈ cycG, Resolvable cycG t.id →
        findRes out.results t.id = some (mkRes exec0 t)) :=
  ⟨by decide, ⟨by decide, by decide⟩,
    executeSwarm_cycle_blocked exec0 cycG cexS (by decide) ⟨by decide, by decide⟩⟩

/-- An acyclic two-task chain 1 ← 2. -/
def chainG : List Task :=
  [⟨1, "list", "list_directory", "/tmp", []⟩,
   ⟨2, "write", "write_file", "/tmp/out.txt", [1]⟩]

/-- Witness for the C1 theorem at a concrete acyclic graph. -/
theorem executeSwarm_acyclic_complete_witness :
    (idsOf chainG).Nodup ∧
    (∀ t ∈ chainG, ∀ d ∈ t.depends_on, ∃ u ∈ chainG, u.id = d) ∧
    Acyclic chainG ∧
    ∃ out, executeSwarm exec0 chainG = some out ∧
      (∀ t ∈ chainG, ∃ r, findRes out.results t.id = some r) ∧
      (∀ wc ∈ out.trace, ∀ t ∈ wc.1, ∀ d ∈ t.depends_on,
        d ∈ wc.2 ∧ ∃ r, findRes out.results d = some r) :=
  ⟨by decide, by decide, ⟨fun n => n, by decide⟩,
    executeSwarm_acyclic_complete exec0 chainG (by decide) (by decide)
      ⟨fun n => n, by decide⟩⟩

/-! ### Failure does not block dependents (claim C5) -/

/-- The control-state projection of a scheduler outcome: everything except
the recorded result values. -/
def schedOf {V : Type} (o : SwarmOut V) :
    List Nat × List Task × List (List Task × List Nat) :=
  (o.completed, o.pending, o.trace)

/-- The wavefront loop never reads `results`: its completed set, its final
pending list and its dispatch trace are identical for any two tool
executors (in particular, for one that throws and one that succeeds). -/
theorem swarmLoop_sched_indep {V₁ V₂ : Type}
    (e1 : String → String → Except String V₁)
    (e2 : String → String → Except String V₂) :
    ∀ (fuel : Nat) (pending : List Task) (completed : List Nat)
      (r1 : List (Nat × TaskRes V₁)) (r2 : List (Nat × TaskRes V₂))
      (trace : List (List Task × List Nat)),
      (swarmLoop e1 fuel pending completed r1 trace).map schedOf =
        (swarmLoop e2 fuel pending completed r2 trace).map schedOf := by
  intro fuel
  induction fuel with
  | zero =>
      intro pending completed r1 r2 trace
      cases pending with
      | nil => rfl
      | cons t ts => rfl
  | succ fuel ih =>
      intro pending completed r1 r2 trace
      cases pending with
      | nil => rfl
      | cons t ts =>
          rw [swarmLoop_cons, swarmLoop_cons]
          by_cases h : (t :: ts).filter (ready completed) = []
          · rw [if_pos h, if_pos h]; rfl
          · rw [if_neg h, if_neg h]
            exact ih _ _ _ _ _

/-- Every dispatched task ends up in `completed`, for any executor. -/
theorem swarmLoop_trace_completed {V : Type}
    (exec : String → String → Except String V) :
    ∀ (fuel : Nat) (pending : List Task) (completed : List Nat)
      (results : List (Nat × TaskRes V))
      (trace : List (List Task × List Nat)) (out : SwarmOut V),
      swarmLoop exec fuel pending completed results trace = some out →
      (∀ wc ∈ trace, ∀ t ∈ wc.1, t.id ∈ completed) →
      (∀ i ∈ completed, i ∈ out.completed) ∧
        (∀ wc ∈ out.trace, ∀ t ∈ wc.1, t.id ∈ out.completed) := by
  intro fuel
  induction fuel with
  | zero =>
      intro pending completed results trace out hout htr
      cases pending with
      | nil =>
          rw [swarmLoop_nil] at hout
          cases hout
          exact ⟨fun i hi => hi, fun wc hwc t ht =>
            htr wc (List.mem_reverse.1 hwc) t ht⟩
      | cons t ts => simp [swarmLoop] at hout
  | succ fuel ih =>
      intro pending completed results trace out hout htr
      cases pending with
      | nil =>
          rw [swarmLoop_nil] at hout
          cases hout
          exact ⟨fun i hi => hi, fun wc hwc t ht =>
            htr wc (List.mem_reverse.1 hwc) t ht⟩
      | cons t ts =>
          rw [swarmLoop_cons] at hout
          by_cases h : (t :: ts).filter (ready completed) = []
          · rw [if_pos h] at hout
            cases hout
            exact ⟨fun i hi => hi, fun wc hwc u hu =>
              htr wc (List.mem_reverse.1 hwc) u hu⟩
          · rw [if_neg h] at hout
            have htr' : ∀ wc ∈ ((t :: ts).filter (ready completed), completed) ::
                trace, ∀ u ∈ wc.1, u.id ∈
                  completed ++ idsOf ((t :: ts).filter (ready completed)) := by
              intro wc hwc u hu
              rcases List.mem_cons.1 hwc with rfl | hwc
              · exact List.mem_append.2 (Or.inr (List.mem_map_of_mem Task.id hu))
              · exact List.mem_append.2 (Or.inl (htr wc hwc u hu))
            obtain ⟨h1, h2⟩ := ih _ _ _ _ _ hout htr'
            exact ⟨fun i hi => h1 i (List.mem_append.2 (Or.inl hi)), h2⟩

/-- C5: a task id is marked completed whether its execution succeeded or
threw — every dispatched task (every task of a recorded wavefront) is in
the final completed set for any executor — and the scheduling itself
(completed set, leftover pending tasks, dispatch trace, hence which
dependents are judged ready in which wavefront) is literally identical for
any two executors, in particular for one where the task fails and one
where it succeeds. -/
theorem executeSwarm_failure_still_completes {V₁ V₂ : Type}
    (e1 : String → String → Except String V₁)
    (e2 : String → String → Except String V₂) (tasks : List Task) :
    (∀ out, executeSwarm e1 tasks = some out →
      ∀ wc ∈ out.trace, ∀ t ∈ wc.1, t.id ∈ out.completed) ∧
    (executeSwarm e1 tasks).map schedOf =
      (executeSwarm e2 tasks).map schedOf := by
  constructor
  · intro out hout wc hwc t ht
    exact (swarmLoop_trace_completed e1 tasks.length tasks [] [] [] out hout
      (fun wc hwc => absurd hwc (List.not_mem_nil wc))).2 wc hwc t ht
  · exact swarmLoop_sched_indep e1 e2 tasks.length tasks [] [] [] []

/-- A tool executor that always throws. -/
def execBoom : String → String → Except String Nat :=
  fun _ _ => Except.error "boom"

/-- Witness for C5: on the chain 1 ← 2 with an executor that always throws,
every dispatched task still reaches `completed` (so task 2 is dispatched in
the second wavefront exactly as with the always-succeeding executor), and
the schedule equals that of the always-succeeding executor. -/
theorem executeSwarm_failure_still_completes_witness :
    (∀ wc ∈ ([([⟨1, "list", "list_directory", "/tmp", []⟩], ([] : List Nat)),
        ([⟨2, "write", "write_file", "/tmp/out.txt", [1]⟩], [1])] :
          List (List Task × List Nat)),
      ∀ t ∈ wc.1, t.id ∈ ([1, 2] : List Nat)) ∧
    (executeSwarm execBoom chainG).map schedOf =
      (executeSwarm exec0 chainG).map schedOf := by
  obtain ⟨ha, hb⟩ := executeSwarm_failure_still_completes execBoom exec0 chainG
  exact ⟨ha _ rfl, hb⟩

/-! ## Result synthesis (orchestrator.js, synthesize) -/

/-- The synthesis prompt built from the user request and the serialized
results object; `JSON.stringify(results, null, 2)` is abstracted as the
`serialize` parameter since its output is only ever embedded in the
prompt text. -/
def synthesisPrompt (userPrompt serialized : String) : String :=
  "You executed the following tasks for the user's request: \"" ++
    userPrompt ++ "\"\n\nResults:\n" ++ serialized ++
    "\n\nProvide a concise summary of what was accomplished. Be helpful and clear."

/-- The deterministic fallback summary of the catch branch
(orchestrator.js line 136); `n` is `Object.keys(results).length`. -/
def fallbackSummary (n : Nat) : String :=
  "Tasks completed. " ++ toString n ++ " operations executed."

/-- `synthesize(userPrompt, results)` (orchestrator.js lines 119-138): one
model request; if the model call throws, return the deterministic templated
summary.  `chat` is the model oracle (`this.ollama.chat`, reduced to the
returned message content or a thrown error).  `results` is the scheduler's
results object; its keys are distinct (one entry per executed task id), so
its length is `Object.keys(results).length`. -/
def synthesize {V : Type} (chat : String → Except String String)
    (serialize : List (Nat × TaskRes V) → String)
    (userPrompt : String) (results : List (Nat × TaskRes V)) : String :=
  match chat (synthesisPrompt userPrompt (serialize results)) with
  | Except.ok content => content
  | Except.error _ => fallbackSummary results.length

/-- C9: whenever the model call inside `synthesize` throws, `synthesize`
still returns a string, namely the deterministic template reporting the
number of operations executed; the model error is never propagated. -/
theorem synthesize_fallback {V : Type} (chat : String → Except String String)
    (serialize : List (Nat × TaskRes V) → String) (userPrompt : String)
    (results : List (Nat × TaskRes V)) (e : String)
    (h : chat (synthesisPrompt userPrompt (serialize results)) =
      Except.error e) :
    synthesize chat serialize userPrompt results =
      "Tasks completed. " ++ toString results.length ++
        " operations executed." := by
  simp [synthesize, h, fallbackSummary]

/-- Witness for C9: a model oracle that always fails and a results object
with two entries. -/
theorem synthesize_fallback_witness :
    (fun _ : String =>
        (Except.error "connection refused" : Except String String))
      (synthesisPrompt "hi" "[]") = Except.error "connection refused" ∧
    synthesize (fun _ => Except.error "connection refused")
      (fun _ => "[]") "hi"
      ([(1, TaskRes.ok 0), (2, TaskRes.err "boom")] : List (Nat × TaskRes Nat)) =
      "Tasks completed. " ++
        toString ([(1, TaskRes.ok 0), (2, TaskRes.err "boom")] :
          List (Nat × TaskRes Nat)).length ++ " operations executed." :=
  ⟨rfl, synthesize_fallback (fun _ => Except.error "connection refused")
    (fun _ => "[]") "hi" _ "connection refused" rfl⟩

/-! ## Shell safety gate (src/backend/src/tools/terminal.js)

The `DANGEROUS_PATTERNS` are JavaScript regular expressions built from
literal characters, `\s+` and `\s*` only; `pattern.test(command)` is an
unanchored search.  They are embedded as element lists with a backtracking
matcher. -/

/-- One element of a dangerous-command pattern: a literal character, `\s+`
(one or more whitespace) or `\s*` (zero or more whitespace). -/
inductive PatElem where
  | ch (c : Char)
  | ws
  | wsStar
deriving DecidableEq, Repr

/-- JavaScript `\s` on the characters relevant here (space, tab, newline,
carriage return, vertical tab, form feed; the exotic Unicode space classes
never occur in the patterns' surrounding literals and do not affect the
gate's verdict on matches). -/
def isWsChar (c : Char) : Bool :=
  c = ' ' || c = '\t' || c = '\n' || c = '\r' ||
    c = Char.ofNat 11 || c = Char.ofNat 12

/-- Match a pattern against a prefix of the character list, with
backtracking for the whitespace quantifiers.  The `fuel` argument makes the
recursion structural; every step strictly decreases
`s.length * 2 + p.length`, so with the fuel chosen in `matchElems` the
cut-off branch is unreachable (`matchElemsF_irrel`). -/
def matchElemsF : Nat → List PatElem → List Char → Bool
  | 0, _, _ => false
  | _ + 1, [], _ => true
  | _ + 1, PatElem.ch _ :: _, [] => false
  | f + 1, PatElem.ch c :: ps, d :: ds => c = d && matchElemsF f ps ds
  | _ + 1, PatElem.ws :: _, [] => false
  | f + 1, PatElem.ws :: ps, d :: ds =>
      isWsChar d &&
        (matchElemsF f ps ds || matchElemsF f (PatElem.ws :: ps) ds)
  | f + 1, PatElem.wsStar :: ps, [] => matchElemsF f ps []
  | f + 1, PatElem.wsStar :: ps, d :: ds =>
      matchElemsF f ps (d :: ds) ||
        (isWsChar d && matchElemsF f (PatElem.wsStar :: ps) ds)

def matchElems (p : List PatElem) (s : List Char) : Bool :=
  matchElemsF (s.length * 2 + p.length + 1) p s

/-- Any fuel above the termination measure gives the same verdict: the
fuel encoding does not change the matcher's semantics. -/
theorem matchElemsF_irrel :
    ∀ (f g : Nat) (p : List PatElem) (s : List Char),
      s.length * 2 + p.length < f → s.length * 2 + p.length < g →
      matchElemsF f p s = matchElemsF g p s := by
  intro f
  induction f with
  | zero => intro g p s hf; omega
  | succ f ih =>
      intro g p s hf hg
      match g, hg with
      | g + 1, hg =>
        match p with
        | [] => rfl
        | PatElem.ch c :: ps =>
            match s with
            | [] => rfl
            | d :: ds =>
                simp only [matchElemsF]
                rw [ih g ps ds (by simp at hf ⊢; omega)
                  (by simp at hg ⊢; omega)]
        | PatElem.ws :: ps =>
            match s with
            | [] => rfl
            | d :: ds =>
                simp only [matchElemsF]
                rw [ih g ps ds (by simp at hf ⊢; omega)
                    (by simp at hg ⊢; omega),
                  ih g (PatElem.ws :: ps) ds (by simp at hf ⊢; omega)
                    (by simp at hg ⊢; omega)]
        | PatElem.wsStar :: ps =>
            match s with
            | [] =>
                simp only [matchElemsF]
                rw [ih g ps [] (by simp at hf ⊢; omega)
                  (by simp at hg ⊢; omega)]
            | d :: ds =>
                simp only [matchElemsF]
                rw [ih g ps (d :: ds) (by simp at hf ⊢; omega)
                    (by simp at hg ⊢; omega),
                  ih g (PatElem.wsStar :: ps) ds (by simp at hf ⊢; omega)
                    (by simp at hg ⊢; omega)]

/-- `pattern.test(command)`: try to match at every start position. -/
def testPat (p : List PatElem) : List Char → Bool
  | [] => matchElems p []
  | d :: ds => matchElems p (d :: ds) || testPat p ds

/-- Literal characters of a pattern. -/
def lit (s : String) : List PatElem := s.data.map PatElem.ch

def lbrace : Char := Char.ofNat 123

def rbrace : Char := Char.ofNat 125

/-- The eight `DANGEROUS_PATTERNS` of terminal.js lines 7-16:
`rm\s+-rf\s+\/`, `rm\s+-rf\s+~\/`, `sudo\s+rm`, `mkfs\.`, `dd\s+if=`,
`>\s*\/dev\/sda`, `chmod\s+-R\s+777\s+\/` and the fork bomb
`:\(\)\{\s*:\|:&\s*\};:`. -/
def DANGEROUS_PATTERNS : List (List PatElem) :=
  [lit "rm" ++ [PatElem.ws] ++ lit "-rf" ++ [PatElem.ws] ++ lit "/",
   lit "rm" ++ [PatElem.ws] ++ lit "-rf" ++ [PatElem.ws] ++ lit "~/",
   lit "sudo" ++ [PatElem.ws] ++ lit "rm",
   lit "mkfs.",
   lit "dd" ++ [PatElem.ws] ++ lit "if=",
   lit ">" ++ [PatElem.wsStar] ++ lit "/dev/sda",
   lit "chmod" ++ [PatElem.ws] ++ lit "-R" ++ [PatElem.ws] ++ lit "777" ++
     [PatElem.ws] ++ lit "/",
   lit ":()" ++ [PatElem.ch lbrace] ++ [PatElem.wsStar] ++ lit ":|:&" ++
     [PatElem.wsStar] ++ [PatElem.ch rbrace] ++ lit ";:"]

/-- `isDangerous(command)` (terminal.js lines 23-25):
`DANGEROUS_PATTERNS.some(pattern => pattern.test(command))`. -/
def isDangerous (command : String) : Bool :=
  DANGEROUS_PATTERNS.any (fun p => testPat p command.data)

/-- The options argument of `runCommand`. -/
structure ExecOptions where
  timeout : Option Nat := none
  cwd : Option String := none

/-- The effective options handed to `execAsync`: default timeout 30 s,
5 MB buffer, cwd defaulting to `$HOME`. -/
structure EffOptions where
  timeout : Nat
  maxBuffer : Nat
  cwd : String
deriving DecidableEq, Repr

/-- Outcome of the spawned child process: resolution with stdout/stderr, or
rejection carrying a message and whatever partial output the error object
holds. -/
inductive ExecOutcome where
  | ok (stdout stderr : String)
  | fail (message : String) (stdout stderr : Option String)
deriving DecidableEq, Repr

/-- The result object of `runCommand`. -/
structure CmdResult where
  success : Bool
  stdout : Option String := none
  stderr : Option String := none
  error : Option String := none
deriving DecidableEq, Repr

/-- The safety-gate refusal text (terminal.js line 38). -/
def safetyGateMessage : String :=
  "SAFETY GATE: This command appears dangerous and has been blocked. Destructive commands require explicit user approval."

/-- `runCommand(command, options)` (terminal.js lines 33-62).  `execA` is
the `execAsync` oracle (the spawned process), `home` is `process.env.HOME`.
The returned flag records whether `execAsync` was reached (a child process
spawn was attempted); the safety gate returns before that point. -/
def runCommand (execA : String → EffOptions → ExecOutcome) (home : String)
    (command : String) (options : ExecOptions) : CmdResult × Bool :=
  if isDangerous command then
    ({ success := false, error := some safetyGateMessage }, false)
  else
    let eff : EffOptions :=
      ⟨options.timeout.getD 30000, 5 * 1024 * 1024, options.cwd.getD home⟩
    match execA command eff with
    | ExecOutcome.ok out err =>
        ({ success := true, stdout := some out.trim, stderr := some err.trim },
          true)
    | ExecOutcome.fail msg o e =>
        ({ success := false, error := some msg, stdout := o.map String.trim,
            stderr := e.map String.trim }, true)

/-- C3: for every command matching one of the destructive patterns, and for
every options argument, every `$HOME` and every process oracle,
`runCommand` returns the failing safety-gate result verbatim and
`execAsync` is never reached (no child process is spawned). -/
theorem runCommand_blocks_dangerous
    (execA : String → EffOptions → ExecOutcome) (home command : String)
    (options : ExecOptions) (h : isDangerous command = true) :
    runCommand execA home command options =
      ({ success := false, error := some safetyGateMessage }, false) := by
  simp [runCommand, h]

/-- A process oracle that would succeed if it were ever consulted. -/
def execAOk : String → EffOptions → ExecOutcome :=
  fun _ _ => ExecOutcome.ok "" ""

/-- Witness for C3 at the command `rm -rf /`. -/
theorem runCommand_blocks_dangerous_witness :
    isDangerous "rm -rf /" = true ∧
    runCommand execAOk "/root" "rm -rf /" {} =
      ({ success := false, error := some safetyGateMessage }, false) :=
  ⟨by decide, runCommand_blocks_dangerous execAOk "/root" "rm -rf /" {}
    (by decide)⟩

/-! ## Single-agent chat loops

Two backend servers implement the bounded tool-calling loop:
src/backend/src/server.js `/chat` (embedded as `serverChat`) and the
`/api/chat` server (embedded as `apiChat`).  The model is the oracle
`ask : List Msg → ModelResp` (a chat request with the tool catalog); the
streaming synthesis request of `/api/chat`, issued *without* the tool
catalog, is the separate oracle `askStream`, returning the concatenated
streamed content.  Tool execution is the oracle
`toolExec : name → args → serialized result` (`JSON.stringify` of the
dispatcher result). -/

structure ToolCall where
  name : String
  args : String
deriving DecidableEq, Repr

/-- A model response: final content and/or requested tool calls. -/
structure ModelResp where
  content : String
  tool_calls : List ToolCall
deriving DecidableEq, Repr

inductive Msg where
  | system (content : String)
  | user (content : String)
  | assistant (resp : ModelResp)
  | tool (content : String)
deriving DecidableEq, Repr

/-- The SSE progress events written by the two chat handlers. -/
inductive Ev where
  | thinking (message : String)
  | toolCallEv (name : String) (args : String)
  | toolResultEv (name : String) (result : String)
  | toolStartEv (name : String) (args : String)
  | toolCompleteEv (name : String) (result : String)
  | streamingEv
  | token (content : String)
  | message (content : String)
  | completeEv
  | doneEv
deriving DecidableEq, Repr

def MAX_ITERATIONS : Nat := 10

/-- The `/chat` system prompt (server.js lines 221-242); its text is opaque
data to the loop and is abbreviated to its first sentence. -/
def SYSTEM_PROMPT : String :=
  "You are OpenAgent, a powerful AI assistant with access to local computer tools and web search capabilities."

/-- The `while (continueLoop && iterations < MAX_ITERATIONS)` loop of the
`/chat` handler (server.js lines 269-324).  `fuel` is
`MAX_ITERATIONS - iterations`; the pair returned is the emitted events and
the final value of `iterations`.  When the model requests no tool the final
content is emitted as a `message` event and the loop stops; otherwise every
tool call is executed, `tool_call`/`tool_result` events are emitted, the
results are appended to the conversation and the loop repeats. -/
def chatLoop (ask : List Msg → ModelResp) (toolExec : String → String → String) :
    Nat → List Msg → Nat → List Ev × Nat
  | 0, _, iterations => ([], iterations)
  | fuel + 1, msgs, iterations =>
      let iterations' := iterations + 1
      let resp := ask msgs
      if resp.tool_calls = [] then
        ([Ev.message resp.content], iterations')
      else
        let evs := resp.tool_calls.flatMap (fun tc =>
          [Ev.toolCallEv tc.name tc.args,
           Ev.toolResultEv tc.name (toolExec tc.name tc.args)])
        let msgs' := (msgs ++ [Msg.assistant resp]) ++
          resp.tool_calls.map (fun tc => Msg.tool (toolExec tc.name tc.args))
        let thinkEvs := if iterations' < MAX_ITERATIONS then
            [Ev.thinking "Processing results..."] else []
        (evs ++ thinkEvs ++ (chatLoop ask toolExec fuel msgs' iterations').1,
          (chatLoop ask toolExec fuel msgs' iterations').2)

/-- The `/chat` handler body (server.js lines 247-333): seed the
conversation with the system prompt, run the loop, close with a `done`
event. -/
def serverChat (ask : List Msg → ModelResp)
    (toolExec : String → String → String) (messages : List Msg) :
    List Ev × Nat :=
  let conversationMessages := Msg.system SYSTEM_PROMPT :: messages
  let r := chatLoop ask toolExec MAX_ITERATIONS conversationMessages 0
  (Ev.thinking "Analyzing your request..." :: (r.1 ++ [Ev.doneEv]), r.2)

def MAX_TOOL_ITERATIONS : Nat := 10

/-- The tool-handling loop of the `/api/chat` handler (`while
(response.message.tool_calls && ... && iterations < MAX_TOOL_ITERATIONS)`).
Returns the final conversation, the final model response, the final
`iterations` value and the emitted events.  Note the source pushes the
assistant message once per tool call of the same response; this is
reproduced. -/
def apiLoop (ask : List Msg → ModelResp) (toolExec : String → String → String) :
    Nat → List Msg → ModelResp → Nat → List Msg × ModelResp × Nat × List Ev
  | 0, msgs, resp, iterations => (msgs, resp, iterations, [])
  | fuel + 1, msgs, resp, iterations =>
      if resp.tool_calls = [] then (msgs, resp, iterations, [])
      else
        let iterations' := iterations + 1
        let evs := resp.tool_calls.flatMap (fun tc =>
          [Ev.toolStartEv tc.name tc.args,
           Ev.toolCompleteEv tc.name (toolExec tc.name tc.args)])
        let msgs' := msgs ++ resp.tool_calls.flatMap (fun tc =>
          [Msg.assistant resp, Msg.tool (toolExec tc.name tc.args)])
        let thinkEv := [Ev.thinking ("Processing results... (step " ++
          toString iterations' ++ ")")]
        let next := apiLoop ask toolExec fuel msgs' (ask msgs') iterations'
        (next.1, next.2.1, next.2.2.1, (evs ++ thinkEv) ++ next.2.2.2)

/-- Observable outcome of one `/api/chat` turn. -/
structure ApiChatOut where
  events : List Ev
  fullResponse : String
  finalMessages : List Msg
  lastResp : ModelResp
  iterations : Nat
deriving DecidableEq, Repr

/-- The `/api/chat` handler body after the conversation has been built
(`initMsgs` is `[system prompt, ...conversation]`): initial model request
with tools, bounded tool loop, then one final streaming request *without*
the tool catalog (`askStream`), whose content is emitted token-wise; if the
stream produced nothing and the last response carried content, that content
is emitted instead.  Chunked token emission is collapsed into one `token`
event carrying the concatenation. -/
def apiChat (ask : List Msg → ModelResp) (askStream : List Msg → String)
    (toolExec : String → String → String) (initMsgs : List Msg) :
    ApiChatOut :=
  let first := ask initMsgs
  let lo := apiLoop ask toolExec MAX_TOOL_ITERATIONS initMsgs first 0
  let msgs := lo.1
  let resp := lo.2.1
  let iters := lo.2.2.1
  let loopEvs := lo.2.2.2
  let finalMessages :=
    if resp.content = "" then msgs else msgs ++ [Msg.assistant resp]
  let streamed := askStream finalMessages
  let tokenEvs :=
    if streamed = "" then
      (if resp.content = "" then [] else [Ev.token resp.content])
    else [Ev.token streamed]
  { events := Ev.thinking "Analyzing your request..." ::
      (loopEvs ++ [Ev.streamingEv] ++ tokenEvs ++ [Ev.completeEv]),
    fullResponse := if streamed = "" then resp.content else streamed,
    finalMessages := finalMessages,
    lastResp := resp,
    iterations := iters }

theorem chatLoop_iter_le (ask : List Msg → ModelResp)
    (toolExec : String → String → String) :
    ∀ (fuel : Nat) (msgs : List Msg) (iterations : Nat),
      (chatLoop ask toolExec fuel msgs iterations).2 ≤ iterations + fuel := by
  intro fuel
  induction fuel with
  | zero => intro msgs iterations; simp [chatLoop]
  | succ fuel ih =>
      intro msgs iterations
      simp only [chatLoop]
      by_cases h : (ask msgs).tool_calls = []
      · simp only [h, if_true]
        omega
      · simp only [h, if_false]
        have := ih ((msgs ++ [Msg.assistant (ask msgs)]) ++
          (ask msgs).tool_calls.map
            (fun tc => Msg.tool (toolExec tc.name tc.args))) (iterations + 1)
        omega

theorem chatLoop_iter_eq_of_always_tools (ask : List Msg → ModelResp)
    (toolExec : String → String → String)
    (h : ∀ m, (ask m).tool_calls ≠ []) :
    ∀ (fuel : Nat) (msgs : List Msg) (iterations : Nat),
      (chatLoop ask toolExec fuel msgs iterations).2 = iterations + fuel := by
  intro fuel
  induction fuel with
  | zero => intro msgs iterations; simp [chatLoop]
  | succ fuel ih =>
      intro msgs iterations
      simp only [chatLoop, h msgs, if_false]
      rw [ih]
      omega

theorem chatLoop_no_message_of_always_tools (ask : List Msg → ModelResp)
    (toolExec : String → String → String)
    (h : ∀ m, (ask m).tool_calls ≠ []) :
    ∀ (fuel : Nat) (msgs : List Msg) (iterations : Nat) (c : String),
      Ev.message c ∉ (chatLoop ask toolExec fuel msgs iterations).1 := by
  intro fuel
  induction fuel with
  | zero => intro msgs iterations c; simp [chatLoop]
  | succ fuel ih =>
      intro msgs iterations c
      simp only [chatLoop, h msgs, if_false]
      intro hmem
      rcases List.mem_append.1 hmem with hmem | hmem
      · rcases List.mem_append.1 hmem with hmem | hmem
        · obtain ⟨tc, _, htc⟩ := List.mem_flatMap.1 hmem
          simp at htc
        · by_cases hlt : iterations + 1 < MAX_ITERATIONS
          · simp [hlt] at hmem
          · simp [hlt] at hmem
      · exact ih _ _ c hmem

theorem apiLoop_iter_le (ask : List Msg → ModelResp)
    (toolExec : String → String → String) :
    ∀ (fuel : Nat) (msgs : List Msg) (resp : ModelResp) (iterations : Nat),
      (apiLoop ask toolExec fuel msgs resp iterations).2.2.1 ≤
        iterations + fuel := by
  intro fuel
  induction fuel with
  | zero => intro msgs resp iterations; simp [apiLoop]
  | succ fuel ih =>
      intro msgs resp iterations
      simp only [apiLoop]
      by_cases h : resp.tool_calls = []
      · simp only [h, if_true]
        omega
      · simp only [h, if_false]
        have := ih (msgs ++ resp.tool_calls.flatMap (fun tc =>
          [Msg.assistant resp, Msg.tool (toolExec tc.name tc.args)]))
          (ask (msgs ++ resp.tool_calls.flatMap (fun tc =>
            [Msg.assistant resp, Msg.tool (toolExec tc.name tc.args)])))
          (iterations + 1)
        omega

/-- C4 (amended): both single-agent loops perform at most 10 model/tool
iterations and terminate.  The `/api/chat` handler then issues one final
request without tool access (`askStream`) and emits its content as the
final answer (a `token` event), non-empty whenever the synthesis content
is; if the stream is empty the last response content is used instead.  The
`/chat` handler of server.js, by contrast, performs no synthesis request at
the cap: with a model that always requests tools it stops after exactly 10
iterations without emitting any `message` event. -/
theorem chat_loops_bounded (ask : List Msg → ModelResp)
    (askStream : List Msg → String) (toolExec : String → String → String)
    (messages initMsgs : List Msg) :
    (serverChat ask toolExec messages).2 ≤ MAX_ITERATIONS ∧
    (apiChat ask askStream toolExec initMsgs).iterations ≤
      MAX_TOOL_ITERATIONS ∧
    (askStream (apiChat ask askStream toolExec initMsgs).finalMessages ≠ "" →
      (apiChat ask askStream toolExec initMsgs).fullResponse =
        askStream (apiChat ask askStream toolExec initMsgs).finalMessages ∧
      Ev.token ((apiChat ask askStream toolExec initMsgs).fullResponse) ∈
        (apiChat ask askStream toolExec initMsgs).events) ∧
    (askStream (apiChat ask askStream toolExec initMsgs).finalMessages = "" →
      (apiChat ask askStream toolExec initMsgs).fullResponse =
        (apiChat ask askStream toolExec initMsgs).lastResp.content) ∧
    ((∀ m, (ask m).tool_calls ≠ []) →
      (serverChat ask toolExec messages).2 = MAX_ITERATIONS ∧
      ∀ c, Ev.message c ∉ (serverChat ask toolExec messages).1) := by
  refine ⟨?_, ?_, ?_, ?_, ?_⟩
  · have := chatLoop_iter_le ask toolExec MAX_ITERATIONS
      (Msg.system SYSTEM_PROMPT :: messages) 0
    simpa [serverChat] using this
  · have := apiLoop_iter_le ask toolExec MAX_TOOL_ITERATIONS initMsgs
      (ask initMsgs) 0
    simpa [apiChat] using this
  · intro hne
    simp only [apiChat] at hne ⊢
    constructor
    · simp [hne]
    · simp [hne, List.mem_append]
  · intro heq
    simp only [apiChat] at heq ⊢
    simp [heq]
  · intro h
    constructor
    · have := chatLoop_iter_eq_of_always_tools ask toolExec h MAX_ITERATIONS
        (Msg.system SYSTEM_PROMPT :: messages) 0
      simpa [serverChat] using this
    · intro c
      simp only [serverChat]
      intro hmem
      rcases List.mem_cons.1 hmem with hmem | hmem
      · simp at hmem
      · rcases List.mem_append.1 hmem with hmem | hmem
        · exact chatLoop_no_message_of_always_tools ask toolExec h
            MAX_ITERATIONS _ 0 c hmem
        · simp at hmem

/-- A model oracle that requests one more tool call on every response. -/
def askTools : List Msg → ModelResp :=
  fun _ => ⟨"", [⟨"run_command", "ls"⟩]⟩

def toolExec0 : String → String → String := fun _ _ => "ok"

def isMessageEv : Ev → Bool
  | Ev.message _ => true
  | _ => false

/-- C4 counterexample: with a model that always requests a tool call, the
server.js `/chat` loop stops after exactly `MAX_ITERATIONS` iterations and
emits no `message` event at all — no final synthesis request without tool
access is forced and no final message reaches the caller, refuting the
claim for this handler. -/
theorem chat_cap_no_final_message_counterexample :
    (serverChat askTools toolExec0 [Msg.user "hi"]).2 = 10 ∧
    (serverChat askTools toolExec0 [Msg.user "hi"]).1.countP isMessageEv = 0 := by
  constructor
  · rfl
  · rfl

/-- Witness for the amended C4 theorem: concrete oracles, including the
always-tool-calling model, with every hypothesis discharged. -/
theorem chat_loops_bounded_witness :
    (serverChat askTools toolExec0 [Msg.user "hi"]).2 ≤ MAX_ITERATIONS ∧
    (apiChat askTools (fun _ => "summary") toolExec0 [Msg.user "hi"]).iterations ≤
      MAX_TOOL_ITERATIONS ∧
    ((apiChat askTools (fun _ => "summary") toolExec0 [Msg.user "hi"]).fullResponse =
        "summary" ∧
      Ev.token "summary" ∈
        (apiChat askTools (fun _ => "summary") toolExec0 [Msg.user "hi"]).events) ∧
    ((serverChat askTools toolExec0 [Msg.user "hi"]).2 = MAX_ITERATIONS ∧
      ∀ c, Ev.message c ∉ (serverChat askTools toolExec0 [Msg.user "hi"]).1) := by
  obtain ⟨h1, h2, h3, _, h5⟩ := chat_loops_bounded askTools (fun _ => "summary")
    toolExec0 [Msg.user "hi"] [Msg.user "hi"]
  have h3' := h3 (by decide)
  exact ⟨h1, h2, ⟨h3'.1, h3'.1 ▸ h3'.2⟩,
    h5 (fun m => by simp [askTools])⟩

/-! ## Capability dispatcher of the `/api/chat` server (executeToolCall)

Filesystem, process and network primitives are oracle fields of `World`;
each may reject/throw (`Except.error`).  Pure string processing that no
claim depends on and whose JavaScript semantics do not translate
(`parseSearchResults` with its capture-group regexes and
`decodeURIComponent`, which can throw on malformed percent encodings;
`extractTextFromHtml`; `RegExp.test` for glob-derived file patterns;
`encodeURIComponent`) is likewise abstracted as oracle fields. -/

structure Stats where
  isDirectory : Bool
  size : Nat
deriving DecidableEq, Repr

structure DirEntry where
  name : String
  isDirectory : Bool
  isFile : Bool
deriving DecidableEq, Repr

structure GrepMatch where
  file : String
  line : Nat
  content : String
deriving DecidableEq, Repr

structure SearchHit where
  title : String
  url : String
  snippet : String
deriving DecidableEq, Repr

structure ListItem where
  name : String
  type : String
deriving DecidableEq, Repr

/-- An item of the rich `listDirectory` (filesystem.js lines 117-128). -/
structure RichItem where
  name : String
  type : String
  size : Option Nat
  modified : String
  path : String
deriving DecidableEq, Repr

/-- Capability-specific fields of a dispatcher result. -/
inductive Payload where
  | nonePayload
  | fileContent (path content : String) (size : Nat)
  | written (path : String) (bytesWritten : Nat) (message : String)
  | edited (path message : String) (removed added : List String)
  | listing (path : String) (items : List ListItem) (totalItems : Nat)
  | dirCreated (path message : String)
  | deleted (path message : String)
  | cmd (stdout stderr : Option String)
  | grep (pattern : Option String) (directory : String)
      (matchList : List GrepMatch) (matchCount : Nat)
  | filesFound (pattern : Option String) (directory : String)
      (matchList : List String)
  | web (query : String) (results : List SearchHit) (resultCount : Nat)
  | urlContent (url content : String) (contentLength : Nat)
  | fileRich (path content : String) (size : Nat) (modified : String)
  | writtenRich (path : String) (bytesWritten : Nat) (created : Bool)
  | listingRich (path : String) (items : List RichItem) (totalItems : Nat)
      (truncated : Bool)
  | webResults (results : List SearchHit) (query : Option String)
      (message : Option String)
deriving DecidableEq, Repr

/-- The result envelope of `executeToolCall`: `success` is set on every
branch of the source, `error` on every failure branch, `executionTime` by
the final spread. -/
structure Env where
  success : Bool
  error : Option String := none
  executionTime : Option Nat := none
  payload : Payload := Payload.nonePayload
deriving DecidableEq, Repr

/-- The oracle world of the `/api/chat` server's dispatcher. -/
structure World where
  resolve : String → String
  dirname : String → String
  existsSync : String → Bool
  statSync : String → Except String Stats
  readFileSync : String → Except String String
  writeFileSync : String → String → Except String Unit
  mkdirSync : String → Except String Unit
  unlinkSync : String → Except String Unit
  readdirSync : String → Except String (List DirEntry)
  execA : String → EffOptions → ExecOutcome
  home : String
  fetchHtml : String → Except String String
  parseResults : String → Nat → Except String (List SearchHit)
  extractText : String → String
  encodeURI : String → String
  regexTest : String → String → Bool
  regexTestI : String → String → Bool
  nowStart : Nat
  nowEnd : Nat

/-- `path.resolve(x)` where `x` may be `undefined` (a missing argument), in
which case it throws a `TypeError`. -/
def resolvePath (w : World) : Option String → Except String String
  | none =>
      Except.error "The path argument must be of type string. Received undefined"
  | some p => Except.ok (w.resolve p)

/-- `path.join(dir, name)` on already-clean segments. -/
def joinPath (dir name : String) : String := dir ++ "/" ++ name

/-- JavaScript `s.includes(sub)`. -/
def strIncludes (s sub : String) : Bool := decide (List.IsInfix sub.data s.data)

/-- JavaScript `s.replace(pat, rep)` with a *string* pattern: replace the
first occurrence only (the `$`-escape handling of the replacement string is
not modelled; no claim depends on it). -/
def replaceFirstL (pat rep : List Char) : List Char → List Char
  | [] => if pat.isEmpty then rep else []
  | c :: cs =>
      if pat.isPrefixOf (c :: cs) then rep ++ (c :: cs).drop pat.length
      else c :: replaceFirstL pat rep cs

def strReplaceFirst (s pat rep : String) : String :=
  ⟨replaceFirstL pat.data rep.data s.data⟩

/-- Count non-overlapping matches of a nonempty literal pattern, scanning
left to right. -/
def countOccurGo (p : Char) (ps : List Char) : List Char → Nat
  | [] => 0
  | c :: cs =>
      if (p :: ps).isPrefixOf (c :: cs) then
        1 + countOccurGo p ps (cs.drop ps.length)
      else countOccurGo p ps cs
termination_by s => s.length
decreasing_by
  all_goals simp_wf
  all_goals omega

/-- Number of matches of `content.match(new RegExp(escapeRegExp(pat), 'g'))`:
non-overlapping occurrences scanned left to right; the empty pattern
matches at every position (length + 1 matches). -/
def countOccurL (pat : List Char) : List Char → Nat :=
  match pat with
  | [] => fun s => s.length + 1
  | p :: ps => countOccurGo p ps

/-- `webSearch(query, maxResults)` (webSearch.js lines 14-35): fetch the
DuckDuckGo HTML page, then parse it (expressed as the sequential `bind` of
the two fallible steps, as in the source's try block); any rejection or
thrown parse error is caught and returned as a failure envelope. -/
def webSearchCap (w : World) (query : String) (maxResults : Nat) : Env :=
  match (w.fetchHtml ("https://html.duckduckgo.com/html/?q=" ++
      w.encodeURI query)).bind
      (fun html => w.parseResults html maxResults) with
  | Except.error e =>
      { success := false, error := some ("Web search failed: " ++ e) }
  | Except.ok results =>
      { success := true,
        payload := Payload.web query results results.length }

/-- `readUrl(url)` (webSearch.js lines 126-145). -/
def readUrlCap (w : World) (url : String) : Env :=
  match w.fetchHtml url with
  | Except.error e =>
      { success := false, error := some ("Failed to read URL: " ++ e) }
  | Except.ok html =>
      let textContent := w.extractText html
      { success := true,
        payload := Payload.urlContent url (textContent.take 10000)
          textContent.length }

def skipNames : List String := ["node_modules", "dist", "build", ".git"]

/-- `file_pattern.replace(/\*/g, '.*').replace(/\?/g, '.')` of the
grep_search case. -/
def globToRegex (s : String) : String :=
  (s.replace "*" ".*").replace "?" "."

/-- `pattern.replace(/\./g, '\\.').replace(/\*/g, '.*').replace(/\?/g, '.')`
of the search_files case. -/
def globToRegexDotEscaped (s : String) : String :=
  (((s.replace "." "\\.").replace "*" ".*")).replace "?" "."

/-- The per-file line scan of grep_search: case-insensitive substring test,
line numbers starting at 1, lines trimmed and cut to 200 characters, the
shared match list capped at 50. -/
def grepFileMatches (pattern fullPath content : String)
    (acc : List GrepMatch) : List GrepMatch :=
  (content.splitOn "\n").enum.foldl (fun a p =>
    if strIncludes p.2.toLower pattern.toLower && a.length < 50 then
      a ++ [⟨fullPath, p.1 + 1, p.2.trim.take 200⟩]
    else a) acc

/-- The recursive `searchDir` walk of the grep_search case: depth capped at
5 (fuel 6), hidden and vendored directories skipped, unreadable
directories/files silently skipped, match list capped at 50. -/
def grepWalk (w : World) (pattern : String) (filePat : Option String) :
    Nat → String → List GrepMatch → List GrepMatch
  | 0, _, acc => acc
  | fuel + 1, dir, acc =>
      if 50 ≤ acc.length then acc
      else
        match w.readdirSync dir with
        | Except.error _ => acc
        | Except.ok entries =>
            entries.foldl (fun a e =>
              if e.name.startsWith "." || skipNames.contains e.name then a
              else
                if e.isDirectory then
                  grepWalk w pattern filePat fuel (joinPath dir e.name) a
                else if e.isFile then
                  if (match filePat with
                      | some fp => w.regexTest (globToRegex fp) e.name
                      | none => true) then
                    match w.readFileSync (joinPath dir e.name) with
                    | Except.error _ => a
                    | Except.ok content =>
                        grepFileMatches pattern (joinPath dir e.name) content a
                  else a
                else a) acc

/-- The recursive `searchDir` walk of the search_files case. -/
def searchFilesWalk (w : World) (filePattern : String) :
    Nat → String → List String → List String
  | 0, _, acc => acc
  | fuel + 1, dir, acc =>
      if 50 ≤ acc.length then acc
      else
        match w.readdirSync dir with
        | Except.error _ => acc
        | Except.ok entries =>
            entries.foldl (fun a e =>
              if e.name.startsWith "." || skipNames.contains e.name then a
              else
                if e.isDirectory then
                  searchFilesWalk w filePattern fuel (joinPath dir e.name) a
                else if w.regexTestI (globToRegexDotEscaped filePattern)
                    e.name && a.length < 50 then
                  a ++ [joinPath dir e.name]
                else a) acc

/-- Named arguments of a tool invocation as the dispatcher reads them; a
missing key is `none` (JavaScript `undefined`). -/
structure Args where
  path : Option String := none
  content : Option String := none
  old_text : Option String := none
  new_text : Option String := none
  command : Option String := none
  cwd : Option String := none
  pattern : Option String := none
  directory : Option String := none
  file_pattern : Option String := none
  query : Option String := none
  url : Option String := none

/-- `runCommand(args.command, ...)` with an `undefined` command:
`pattern.test(undefined)` coerces to the string "undefined" (no pattern
matches it), then `exec(undefined)` throws inside the promisified wrapper,
rejecting the promise, which `runCommand`'s catch converts to a failure
result. -/
def runCommandOpt (execA : String → EffOptions → ExecOutcome) (home : String)
    (cmd : Option String) (options : ExecOptions) : CmdResult × Bool :=
  match cmd with
  | some c => runCommand execA home c options
  | none =>
      ({ success := false,
         error := some "The command argument must be of type string. Received undefined" },
        true)

/-- `result = await runCommand(...)` as an `executeToolCall` envelope (the
dispatcher spreads `executionTime` over it afterwards). -/
def cmdResultToEnv (r : CmdResult) : Env :=
  { success := r.success, error := r.error,
    payload := Payload.cmd r.stdout r.stderr }

/-- The `{success: false, error}` failure object. -/
def failEnv (e : String) : Env :=
  { success := false, error := some e }

/-- The `read_file` case (lines 209-225). -/
def readFileCase (w : World) (args : Args) : Except String Env :=
  match resolvePath w args.path with
  | Except.error e => Except.error e
  | Except.ok filePath =>
      if w.existsSync filePath then
        match w.statSync filePath with
        | Except.error e => Except.error e
        | Except.ok stats =>
            if stats.isDirectory then
              Except.ok (failEnv "Path is a directory, use list_directory instead")
            else if 1024 * 1024 < stats.size then
              Except.ok (failEnv "File too large (>1MB). Read specific sections instead.")
            else
              match w.readFileSync filePath with
              | Except.error e => Except.error e
              | Except.ok content =>
                  Except.ok
                    { success := true,
                      payload := Payload.fileContent filePath content stats.size }
      else
        Except.ok (failEnv ("File not found: " ++ filePath))

/-- The `write_file` case (lines 227-236).  `bytesWritten` is
`args.content.length` (UTF-16 length in the source, character count
here). -/
def writeFileCase (w : World) (args : Args) : Except String Env :=
  match resolvePath w args.path with
  | Except.error e => Except.error e
  | Except.ok filePath =>
      match (if w.existsSync (w.dirname filePath) then Except.ok ()
             else w.mkdirSync (w.dirname filePath)) with
      | Except.error e => Except.error e
      | Except.ok _ =>
          match args.content with
          | none =>
              Except.error "The data argument must be of type string. Received undefined"
          | some content =>
              match w.writeFileSync filePath content with
              | Except.error e => Except.error e
              | Except.ok _ =>
                  Except.ok
                    { success := true,
                      payload := Payload.written filePath content.length
                        "File written successfully" }

/-- The `edit_file` case (lines 238-262).  With an `undefined` `old_text`,
`content.includes(undefined)` coerces to the string "undefined"; if found,
`escapeRegExp(undefined)` then throws. -/
def editFileCase (w : World) (args : Args) : Except String Env :=
  match resolvePath w args.path with
  | Except.error e => Except.error e
  | Except.ok filePath =>
      if w.existsSync filePath then
        match w.readFileSync filePath with
        | Except.error e => Except.error e
        | Except.ok content =>
            match args.old_text with
            | none =>
                if strIncludes content "undefined" then
                  Except.error "string.replace is not a function"
                else
                  Except.ok (failEnv "Old text not found in file. Make sure it matches exactly including whitespace.")
            | some oldText =>
                if strIncludes content oldText then
                  match w.writeFileSync filePath
                      (strReplaceFirst content oldText
                        (args.new_text.getD "undefined")) with
                  | Except.error e => Except.error e
                  | Except.ok _ =>
                      Except.ok
                        { success := true,
                          payload := Payload.edited filePath
                            ("Replaced " ++
                              toString (countOccurL oldText.data content.data) ++
                              " occurrence(s)")
                            ((oldText.splitOn "\n").take 5)
                            (((args.new_text.getD "undefined").splitOn "\n").take 5) }
                else
                  Except.ok (failEnv "Old text not found in file. Make sure it matches exactly including whitespace.")
      else
        Except.ok (failEnv ("File not found: " ++ filePath))

/-- The `list_directory` case (lines 264-282). -/
def listDirectoryCase (w : World) (args : Args) : Except String Env :=
  match resolvePath w args.path with
  | Except.error e => Except.error e
  | Except.ok dirPath =>
      if w.existsSync dirPath then
        match w.statSync dirPath with
        | Except.error e => Except.error e
        | Except.ok st =>
            if st.isDirectory then
              match w.readdirSync dirPath with
              | Except.error e => Except.error e
              | Except.ok entries =>
                  Except.ok
                    { success := true,
                      payload := Payload.listing dirPath
                        (((entries.filter
                            (fun e => !(e.name.startsWith "."))).take 50).map
                          (fun e => ⟨e.name,
                            if e.isDirectory then "directory" else "file"⟩))
                        entries.length }
            else
              Except.ok (failEnv "Path is not a directory")
      else
        Except.ok (failEnv ("Directory not found: " ++ dirPath))

/-- The `create_directory` case (lines 284-289). -/
def createDirectoryCase (w : World) (args : Args) : Except String Env :=
  match resolvePath w args.path with
  | Except.error e => Except.error e
  | Except.ok dirPath =>
      match w.mkdirSync dirPath with
      | Except.error e => Except.error e
      | Except.ok _ =>
          Except.ok
            { success := true,
              payload := Payload.dirCreated dirPath "Directory created" }

/-- The `delete_file` case (lines 291-302). -/
def deleteFileCase (w : World) (args : Args) : Except String Env :=
  match resolvePath w args.path with
  | Except.error e => Except.error e
  | Except.ok filePath =>
      if w.existsSync filePath then
        match w.statSync filePath with
        | Except.error e => Except.error e
        | Except.ok st =>
            if st.isDirectory then
              Except.ok (failEnv "Cannot delete directory with this tool. Use run_command with rm -r instead.")
            else
              match w.unlinkSync filePath with
              | Except.error e => Except.error e
              | Except.ok _ =>
                  Except.ok
                    { success := true,
                      payload := Payload.deleted filePath "File deleted" }
      else
        Except.ok (failEnv ("File not found: " ++ filePath))

/-- The `grep_search` case (lines 309-358).  An `undefined` pattern makes
`pattern.toLowerCase()` throw inside the per-directory try at the first
examined line, so no match is ever recorded and the walk still reports
success. -/
def grepSearchCase (w : World) (args : Args) : Except String Env :=
  match resolvePath w args.directory with
  | Except.error e => Except.error e
  | Except.ok dirPath =>
      if w.existsSync dirPath then
        Except.ok
          { success := true,
            payload := Payload.grep args.pattern dirPath
              (match args.pattern with
               | none => []
               | some pat => grepWalk w pat args.file_pattern 6 dirPath [])
              (match args.pattern with
               | none => []
               | some pat => grepWalk w pat args.file_pattern 6 dirPath []).length }
      else
        Except.ok (failEnv ("Directory not found: " ++ dirPath))

/-- The `search_files` case (lines 360-391).  An `undefined` name pattern
makes `filePattern.replace` throw inside the per-directory try, so no
match is ever recorded. -/
def searchFilesCase (w : World) (args : Args) : Except String Env :=
  match resolvePath w args.directory with
  | Except.error e => Except.error e
  | Except.ok dirPath =>
      if w.existsSync dirPath then
        Except.ok
          { success := true,
            payload := Payload.filesFound args.pattern dirPath
              (match args.pattern with
               | none => []
               | some fp => searchFilesWalk w fp 6 dirPath []) }
      else
        Except.ok (failEnv ("Directory not found: " ++ dirPath))

/-- The switch body of `executeToolCall` (part_001 lines 208-405),
excluding the outer try/catch and timing. -/
def executeToolCallRaw (w : World) (name : String) (args : Args) :
    Except String Env :=
  match name with
  | "read_file" => readFileCase w args
  | "write_file" => writeFileCase w args
  | "edit_file" => editFileCase w args
  | "list_directory" => listDirectoryCase w args
  | "create_directory" => createDirectoryCase w args
  | "delete_file" => deleteFileCase w args
  | "run_command" =>
      Except.ok (cmdResultToEnv
        (runCommandOpt w.execA w.home args.command
          { timeout := none, cwd := args.cwd }).1)
  | "grep_search" => grepSearchCase w args
  | "search_files" => searchFilesCase w args
  | "web_search" =>
      Except.ok (webSearchCap w (args.query.getD "undefined") 5)
  | "read_url" =>
      match args.url with
      | none =>
          Except.ok (failEnv "Failed to read URL: url.startsWith is not a function")
      | some url => Except.ok (readUrlCap w url)
  | _ =>
      Except.ok (failEnv ("Unknown tool: " ++ name))

/-- `executeToolCall(name, args)` (part_001 lines 203-414): run the switch
under a try/catch that converts any thrown error into
`{success: false, error}`, then spread `executionTime` over the result. -/
def executeToolCall (w : World) (name : String) (args : Args) : Env :=
  let result :=
    match executeToolCallRaw w name args with
    | Except.ok r => r
    | Except.error e => { success := false, error := some e }
  { result with executionTime := some (w.nowEnd - w.nowStart) }

/-! ### C6: capability failures are data, never exceptions -/

theorem runCommandOpt_failure (execA : String → EffOptions → ExecOutcome)
    (home : String) (cmd : Option String) (options : ExecOptions) :
    (runCommandOpt execA home cmd options).1.success = false →
    ∃ e, (runCommandOpt execA home cmd options).1.error = some e := by
  intro hs
  unfold runCommandOpt at hs ⊢
  cases cmd with
  | none => exact ⟨_, rfl⟩
  | some c =>
      unfold runCommand at hs ⊢
      by_cases hd : isDangerous c
      · simp [hd]
      · simp only [hd, Bool.false_eq_true, if_false] at hs ⊢
        revert hs
        cases execA c ⟨options.timeout.getD 30000, 5 * 1024 * 1024,
            options.cwd.getD home⟩ with
        | ok out err => intro hs; simp at hs
        | fail msg o e => intro _; exact ⟨msg, rfl⟩

theorem webSearchCap_failure (w : World) (q : String) (n : Nat) :
    (webSearchCap w q n).success = false →
    ∃ e, (webSearchCap w q n).error = some e := by
  intro hs
  unfold webSearchCap at hs ⊢
  revert hs
  cases (w.fetchHtml ("https://html.duckduckgo.com/html/?q=" ++
      w.encodeURI q)).bind (fun html => w.parseResults html n) with
  | error e => intro _; exact ⟨_, rfl⟩
  | ok results => intro hs; simp at hs

theorem readUrlCap_failure (w : World) (url : String) :
    (readUrlCap w url).success = false →
    ∃ e, (readUrlCap w url).error = some e := by
  intro hs
  unfold readUrlCap at hs ⊢
  revert hs
  cases w.fetchHtml url with
  | error e => intro _; exact ⟨_, rfl⟩
  | ok html => intro hs; simp at hs

theorem readFileCase_failure (w : World) (args : Args) :
    ∀ r, readFileCase w args = Except.ok r →
      r.success = false → ∃ e, r.error = some e := by
  intro r hr
  unfold readFileCase at hr
  repeat' split at hr
  all_goals first
    | (injection hr with h; subst h; intro hs; simp_all [failEnv])
    | injection hr

theorem writeFileCase_failure (w : World) (args : Args) :
    ∀ r, writeFileCase w args = Except.ok r →
      r.success = false → ∃ e, r.error = some e := by
  intro r hr
  unfold writeFileCase at hr
  repeat' split at hr
  all_goals first
    | (injection hr with h; subst h; intro hs; simp_all [failEnv])
    | injection hr

theorem editFileCase_failure (w : World) (args : Args) :
    ∀ r, editFileCase w args = Except.ok r →
      r.success = false → ∃ e, r.error = some e := by
  intro r hr
  unfold editFileCase at hr
  repeat' split at hr
  all_goals first
    | (injection hr with h; subst h; intro hs; simp_all [failEnv])
    | injection hr

theorem listDirectoryCase_failure (w : World) (args : Args) :
    ∀ r, listDirectoryCase w args = Except.ok r →
      r.success = false → ∃ e, r.error = some e := by
  intro r hr
  unfold listDirectoryCase at hr
  repeat' split at hr
  all_goals first
    | (injection hr with h; subst h; intro hs; simp_all [failEnv])
    | injection hr

theorem createDirectoryCase_failure (w : World) (args : Args) :
    ∀ r, createDirectoryCase w args = Except.ok r →
      r.success = false → ∃ e, r.error = some e := by
  intro r hr
  unfold createDirectoryCase at hr
  repeat' split at hr
  all_goals first
    | (injection hr with h; subst h; intro hs; simp_all [failEnv])
    | injection hr

theorem deleteFileCase_failure (w : World) (args : Args) :
    ∀ r, deleteFileCase w args = Except.ok r →
      r.success = false → ∃ e, r.error = some e := by
  intro r hr
  unfold deleteFileCase at hr
  repeat' split at hr
  all_goals first
    | (injection hr with h; subst h; intro hs; simp_all [failEnv])
    | injection hr

theorem grepSearchCase_failure (w : World) (args : Args) :
    ∀ r, grepSearchCase w args = Except.ok r →
      r.success = false → ∃ e, r.error = some e := by
  intro r hr
  unfold grepSearchCase at hr
  repeat' split at hr
  all_goals first
    | (injection hr with h; subst h; intro hs; simp_all [failEnv])
    | injection hr

theorem searchFilesCase_failure (w : World) (args : Args) :
    ∀ r, searchFilesCase w args = Except.ok r →
      r.success = false → ∃ e, r.error = some e := by
  intro r hr
  unfold searchFilesCase at hr
  repeat' split at hr
  all_goals first
    | (injection hr with h; subst h; intro hs; simp_all [failEnv])
    | injection hr

/-- Every `Except.ok` result of the dispatcher switch that reports
`success: false` carries an error string. -/
theorem executeToolCallRaw_failure (w : World) (name : String) (args : Args) :
    ∀ r, executeToolCallRaw w name args = Except.ok r →
      r.success = false → ∃ e, r.error = some e := by
  intro r hr hs
  unfold executeToolCallRaw at hr
  split at hr
  · exact readFileCase_failure w args r hr hs
  · exact writeFileCase_failure w args r hr hs
  · exact editFileCase_failure w args r hr hs
  · exact listDirectoryCase_failure w args r hr hs
  · exact createDirectoryCase_failure w args r hr hs
  · exact deleteFileCase_failure w args r hr hs
  · cases hr
    simp only [cmdResultToEnv] at hs ⊢
    exact runCommandOpt_failure w.execA w.home args.command
      { timeout := none, cwd := args.cwd } hs
  · exact grepSearchCase_failure w args r hr hs
  · exact searchFilesCase_failure w args r hr hs
  · cases hr
    exact webSearchCap_failure w (args.query.getD "undefined") 5 hs
  · split at hr
    · cases hr; exact ⟨_, rfl⟩
    · cases hr
      exact readUrlCap_failure w _ hs
  · cases hr
    exact ⟨_, rfl⟩

/-- C6: for every capability name, argument mapping and oracle world
(unknown names, missing arguments and failing I/O included), the
dispatcher `executeToolCall` returns a result value rather than
propagating an exception: a `success: false` result always carries an
error string, and a thrown error surfaces as exactly the
`{success: false, error}` envelope (plus timing) rather than an
exception. -/
theorem executeToolCall_never_throws (w : World) (name : String)
    (args : Args) :
    ((executeToolCall w name args).success = false →
      ∃ e, (executeToolCall w name args).error = some e) ∧
    (∀ e, executeToolCallRaw w name args = Except.error e →
      executeToolCall w name args =
        { success := false, error := some e,
          executionTime := some (w.nowEnd - w.nowStart),
          payload := Payload.nonePayload }) := by
  constructor
  · intro hs
    simp only [executeToolCall] at hs ⊢
    revert hs
    cases hraw : executeToolCallRaw w name args with
    | ok r =>
        intro hs
        exact executeToolCallRaw_failure w name args r hraw (by exact hs)
    | error e => intro _; exact ⟨e, rfl⟩
  · intro e hraw
    simp only [executeToolCall, hraw]

/-- A concrete oracle world: an empty filesystem whose read operations
fail, a healthy process spawner, an offline network. -/
def world0 : World :=
  { resolve := id, dirname := fun _ => "/", existsSync := fun _ => false,
    statSync := fun _ => Except.error "ENOENT",
    readFileSync := fun _ => Except.error "ENOENT",
    writeFileSync := fun _ _ => Except.ok (),
    mkdirSync := fun _ => Except.ok (),
    unlinkSync := fun _ => Except.ok (),
    readdirSync := fun _ => Except.error "ENOENT",
    execA := fun _ _ => ExecOutcome.ok "" "", home := "/root",
    fetchHtml := fun _ => Except.error "offline",
    parseResults := fun _ _ => Except.ok [], extractText := id,
    encodeURI := id, regexTest := fun _ _ => false,
    regexTestI := fun _ _ => false, nowStart := 100, nowEnd := 105 }

/-- Witness for C6: an unknown capability name yields a returned failure
envelope with an error string, and a missing `path` argument on
`read_file` (whose `path.resolve` throws) is caught and returned as
data. -/
theorem executeToolCall_never_throws_witness :
    ((executeToolCall world0 "no_such_tool" {}).success = false ∧
      ∃ e, (executeToolCall world0 "no_such_tool" {}).error = some e) ∧
    (executeToolCallRaw world0 "read_file" {} =
        Except.error "The path argument must be of type string. Received undefined" ∧
      executeToolCall world0 "read_file" {} =
        { success := false,
          error := some "The path argument must be of type string. Received undefined",
          executionTime := some (world0.nowEnd - world0.nowStart),
          payload := Payload.nonePayload }) := by
  obtain ⟨h1, _⟩ := executeToolCall_never_throws world0 "no_such_tool" {}
  obtain ⟨_, h4⟩ := executeToolCall_never_throws world0 "read_file" {}
  exact ⟨⟨rfl, h1 rfl⟩, rfl, h4 _ rfl⟩

/-! ## The rich filesystem module (src/backend/src/tools/filesystem.js) and
the server.js dispatcher `executeTool`

File contents are explicit state (`FS`); metadata that no claim depends on
(mtimes, directory enumeration) and the deterministic path functions are
oracles of `SrvWorld`.  OS-level fault modes of the write path itself
(permissions, target-is-directory races) are outside the model: a write to
a non-denylisted path updates the file map. -/

/-- Assignment `files[k] = v` on the path-to-content map. -/
def setStr (l : List (String × String)) (k v : String) :
    List (String × String) :=
  match l with
  | [] => [(k, v)]
  | (k', v') :: rest =>
      if k' = k then (k, v) :: rest else (k', v') :: setStr rest k v

def lookupStr (l : List (String × String)) (k : String) : Option String :=
  match l with
  | [] => none
  | (k', v) :: rest => if k' = k then some v else lookupStr rest k

theorem lookupStr_setStr (k v : String) :
    ∀ (l : List (String × String)) (j : String),
      lookupStr (setStr l k v) j = if j = k then some v else lookupStr l j := by
  intro l
  induction l with
  | nil =>
      intro j
      simp only [setStr, lookupStr]
      by_cases hj : j = k
      · simp [hj]
      · rw [if_neg (fun h => hj h.symm), if_neg hj]
  | cons p rest ih =>
      intro j
      obtain ⟨k', v'⟩ := p
      simp only [setStr]
      by_cases hk : k' = k
      · subst hk
        simp only [if_pos rfl, lookupStr]
        by_cases hj : j = k'
        · subst hj; rw [if_pos rfl, if_pos rfl]
        · rw [if_neg (fun h => hj h.symm), if_neg hj,
              if_neg (fun h => hj h.symm)]
      · simp only [if_neg hk, lookupStr]
        by_cases hj : j = k
        · subst hj
          rw [if_pos rfl, if_neg (fun h : k' = j => hk h), ih, if_pos rfl]
        · rw [if_neg hj, ih, if_neg hj]

theorem setStr_setStr (k v v' : String) :
    ∀ l : List (String × String),
      setStr (setStr l k v) k v' = setStr l k v' := by
  intro l
  induction l with
  | nil => simp [setStr]
  | cons p rest ih =>
      obtain ⟨k', u⟩ := p
      simp only [setStr]
      by_cases hk : k' = k
      · simp [setStr, hk]
      · simp [setStr, hk, ih]

/-- The filesystem state: file contents and known directories. -/
structure FS where
  files : List (String × String)
  dirs : List String
deriving DecidableEq, Repr

def fsExistsFile (fs : FS) (p : String) : Bool := (lookupStr fs.files p).isSome

def fsIsDir (fs : FS) (p : String) : Bool := fs.dirs.contains p

/-- `fs.existsSync(p)`. -/
def fsExists (fs : FS) (p : String) : Bool := fsExistsFile fs p || fsIsDir fs p

/-- Oracles of the server.js tool family. -/
structure SrvWorld where
  resolve : String → String
  dirname : String → String
  mtime : String → String
  now : Nat
  readdirItems : String → List RichItem
  execA : String → EffOptions → ExecOutcome
  home : String
  httpGet : String → Except String String
  ddgExtract : String → Nat → Except String (List SearchHit)
  encodeURI : String → String

/-- The result envelope of the server.js tool handlers: `success` is
`none` when the source object carries no `success` key at all (the
unknown-tool case), and no handler ever sets `executionTime`. -/
structure SrvEnv where
  success : Option Bool := none
  error : Option String := none
  executionTime : Option Nat := none
  payload : Payload := Payload.nonePayload
deriving DecidableEq, Repr

/-- The `{success: false, error}` object of the rich handlers. -/
def failSrv (e : String) : SrvEnv := { success := some false, error := some e }

def DANGEROUS_PATHS : List String :=
  ["/etc", "/usr", "/bin", "/sbin", "/var", "/private", "/System"]

/-- JavaScript `s.startsWith(pre)` (on the character level; byte-position
details of the runtime string representation are immaterial here). -/
def strStartsWith (s pre : String) : Bool := pre.data.isPrefixOf s.data

/-- `isDangerousPath(filePath)` (filesystem.js lines 16-19): resolve, then
test the denylisted system prefixes. -/
def isDangerousPath (resolve : String → String) (filePath : String) : Bool :=
  DANGEROUS_PATHS.any (fun d => strStartsWith (resolve filePath) d)

structure WriteOptions where
  force : Bool := false
  backup : Bool := false
deriving DecidableEq, Repr

/-- `writeFile(filePath, content, options)` (filesystem.js lines 62-97):
resolve; refuse denylisted paths unless forced; create the parent
directory if needed; optionally back up an existing file; write; report
`bytesWritten` (UTF-8 bytes) and `created` — the latter computed from
`existsSync` *after* the write.  A missing path or content argument throws
inside the try and is returned as a failure envelope. -/
def writeFile (w : SrvWorld) (fs : FS) (filePath content : Option String)
    (options : WriteOptions) : FS × SrvEnv :=
  match filePath with
  | none =>
      (fs, failSrv "The path argument must be of type string. Received undefined")
  | some p =>
      let resolved := w.resolve p
      if isDangerousPath w.resolve resolved && !options.force then
        (fs, failSrv "Writing to system directories is not allowed")
      else
        let dir := w.dirname resolved
        let fs1 := if fsExists fs dir then fs else { fs with dirs := dir :: fs.dirs }
        let backupFiles :=
          setStr fs1.files (resolved ++ ".backup." ++ toString w.now)
            ((lookupStr fs1.files resolved).getD "")
        let fs2 :=
          if fsExists fs1 resolved && options.backup then
            { fs1 with files := backupFiles }
          else fs1
        match content with
        | none =>
            (fs2, failSrv "The data argument must be of type string. Received undefined")
        | some c =>
            let fs3 := { fs2 with files := setStr fs2.files resolved c }
            (fs3,
              { success := some true,
                payload := Payload.writtenRich resolved c.utf8ByteSize
                  (!(fsExists fs3 resolved)) })

/-- `readFile(filePath)` (filesystem.js lines 24-57).  The too-large error
text of the source interpolates the size in MB; the formatted number is
not modelled. -/
def readFile (w : SrvWorld) (fs : FS) (filePath : Option String) : SrvEnv :=
  match filePath with
  | none =>
      failSrv "The path argument must be of type string. Received undefined"
  | some p =>
      let resolved := w.resolve p
      if fsExists fs resolved then
        if fsIsDir fs resolved then failSrv "Path is a directory, not a file"
        else
          let content := (lookupStr fs.files resolved).getD ""
          if 5 * 1024 * 1024 < content.utf8ByteSize then
            failSrv "File too large. Maximum: 5MB"
          else
            { success := some true,
              payload := Payload.fileRich resolved content
                content.utf8ByteSize (w.mtime resolved) }
      else failSrv ("File not found: " ++ resolved)

structure ListOptions where
  filesOnly : Bool := false
  dirsOnly : Bool := false
  showHidden : Bool := false
deriving DecidableEq, Repr

/-- `listDirectory(dirPath, options)` (filesystem.js lines 102-156); the
per-entry stat data is the `readdirItems` oracle. -/
def listDirectory (w : SrvWorld) (fs : FS) (dirPath : Option String)
    (options : ListOptions) : SrvEnv :=
  match dirPath with
  | none =>
      failSrv "The path argument must be of type string. Received undefined"
  | some p =>
      let resolved := w.resolve p
      if fsExists fs resolved then
        if fsIsDir fs resolved then
          let items0 := w.readdirItems resolved
          let items1 :=
            if options.filesOnly then items0.filter (fun i => i.type = "file")
            else items0
          let items2 :=
            if options.dirsOnly then items1.filter (fun i => i.type = "directory")
            else items1
          let items3 :=
            if options.showHidden then items2
            else items2.filter (fun i => !(i.name.startsWith "."))
          { success := some true,
            payload := Payload.listingRich resolved
              (if 100 < items3.length then items3.take 100 else items3)
              items0.length (100 < items0.length) }
        else failSrv "Path is not a directory"
      else failSrv ("Directory not found: " ++ resolved)

/-- `searchWeb(query, numResults)` (src/backend/src/tools/search.js lines
10-92): one HTTPS GET against the DuckDuckGo instant-answer API
(`httpGet`, rejection = the request error handler), then JSON parsing and
result extraction (`ddgExtract`, throwing = the catch branch); an empty
result list produces the advisory `message` envelope. -/
def searchWeb (w : SrvWorld) (query : Option String) (numResults : Nat) :
    SrvEnv :=
  match w.httpGet ("https://api.duckduckgo.com/?q=" ++
      w.encodeURI (query.getD "undefined") ++
      "&format=json&no_html=1&skip_disambig=1") with
  | Except.error e =>
      { success := some false, error := some ("Search request failed: " ++ e) }
  | Except.ok data =>
      match w.ddgExtract data numResults with
      | Except.error e =>
          { success := some false,
            error := some ("Failed to parse search results: " ++ e) }
      | Except.ok results =>
          if results.isEmpty then
            { success := some true,
              payload := Payload.webResults [] none
                (some ("No instant results found for \"" ++
                  query.getD "undefined" ++
                  "\". Try a more specific search term.")) }
          else
            { success := some true,
              payload := Payload.webResults (results.take numResults)
                query none }

/-- Arguments of a server.js tool call. -/
structure SrvArgs where
  path : Option String := none
  content : Option String := none
  search_content : Option String := none
  replace_content : Option String := none
  command : Option String := none
  pattern : Option String := none
  directory : Option String := none
  file_pattern : Option String := none
  ignore_case : Option Bool := none
  query : Option String := none
  num_results : Option Nat := none

/-- `args.num_results || 5`: JavaScript `||` treats 0 as falsy. -/
def orFive : Option Nat → Nat
  | none => 5
  | some 0 => 5
  | some n => n

def cmdResultToSrvEnv (r : CmdResult) : SrvEnv :=
  { success := some r.success, error := r.error,
    payload := Payload.cmd r.stdout r.stderr }

/-- `executeTool(toolName, args)` (server.js lines 192-216): a plain switch
with *no* try/catch and no result normalization — handler results are
returned unchanged.  The `edit_file`, `create_directory` and `grep_search`
cases call functions the filesystem module does not export; the resulting
`TypeError` propagates to the caller (`Except.error`). -/
def serverExecuteTool (w : SrvWorld) (fs : FS) (name : String)
    (args : SrvArgs) : Except String (FS × SrvEnv) :=
  match name with
  | "read_file" => Except.ok (fs, readFile w fs args.path)
  | "write_file" => Except.ok (writeFile w fs args.path args.content {})
  | "edit_file" => Except.error "filesystemTool.editFile is not a function"
  | "list_directory" => Except.ok (fs, listDirectory w fs args.path {})
  | "create_directory" =>
      Except.error "filesystemTool.createDirectory is not a function"
  | "run_command" =>
      Except.ok (fs, cmdResultToSrvEnv
        (runCommandOpt w.execA w.home args.command {}).1)
  | "grep_search" => Except.error "filesystemTool.grepSearch is not a function"
  | "search_web" =>
      Except.ok (fs, searchWeb w args.query (orFive args.num_results))
  | _ => Except.ok (fs, { error := some ("Unknown tool: " ++ name) })

/-! ### C7, C8, C10 -/

theorem lookupStr_setStr_self (l : List (String × String)) (k v : String) :
    lookupStr (setStr l k v) k = some v := by
  rw [lookupStr_setStr]
  simp

theorem fsExists_set_self (fs : FS) (k v : String) :
    fsExists { fs with files := setStr fs.files k v } k = true := by
  simp [fsExists, fsExistsFile, lookupStr_setStr_self]

theorem fsExists_mono_set (fs : FS) (k v q : String)
    (h : fsExists fs q = true) :
    fsExists { fs with files := setStr fs.files k v } q = true := by
  simp only [fsExists, fsExistsFile, fsIsDir, Bool.or_eq_true] at h ⊢
  rcases h with h | h
  · left
    rw [lookupStr_setStr]
    by_cases hq : q = k <;> simp [hq, h]
  · right; exact h

/-- C10: every successful result of the rich `writeFile` reports
`created = false`, whether or not the file existed before the call,
because the existence check that computes it runs after the file has been
written; no caller can learn from it whether the write created the
file. -/
theorem writeFile_created_false (w : SrvWorld) (fs : FS)
    (filePath content : Option String) (options : WriteOptions)
    (hs : (writeFile w fs filePath content options).2.success = some true) :
    (match (writeFile w fs filePath content options).2.payload with
      | Payload.writtenRich _ _ created => some created
      | _ => none) = some false := by
  cases filePath with
  | none => simp [writeFile, failSrv] at hs
  | some p =>
      cases content with
      | none =>
          simp only [writeFile] at hs
          split at hs
          · simp [failSrv] at hs
          · simp [failSrv] at hs
      | some c0 =>
          simp only [writeFile] at hs ⊢
          split at hs
          · simp [failSrv] at hs
          · rename_i hgate
            rw [if_neg hgate]
            rw [fsExists_set_self]
            rfl

theorem FS_ext (a b : FS) (hf : a.files = b.files) (hd : a.dirs = b.dirs) :
    a = b := by
  cases a; cases b; simp_all

/-- Evaluation of one non-denylisted `writeFile` with default options: it
succeeds, the file map gains the written content, the parent directory is
registered if it was missing, and afterwards the parent directory
exists. -/
theorem writeFile_state (w : SrvWorld) (fs : FS) (p c : String)
    (h : isDangerousPath w.resolve (w.resolve p) = false) :
    (writeFile w fs (some p) (some c) {}).2.success = some true ∧
    (writeFile w fs (some p) (some c) {}).1.files =
      setStr fs.files (w.resolve p) c ∧
    (writeFile w fs (some p) (some c) {}).1.dirs =
      (if fsExists fs (w.dirname (w.resolve p)) then fs.dirs
       else w.dirname (w.resolve p) :: fs.dirs) ∧
    fsExists (writeFile w fs (some p) (some c) {}).1
      (w.dirname (w.resolve p)) = true := by
  by_cases hdir : fsExists fs (w.dirname (w.resolve p)) = true
  · refine ⟨?_, ?_, ?_, ?_⟩
    · simp [writeFile, h, hdir]
    · simp [writeFile, h, hdir]
    · simp [writeFile, h, hdir]
    · simp only [writeFile, h, hdir]
      simp only [Bool.false_eq_true, if_false, if_true, Bool.and_false,
        Bool.not_false, Bool.and_true]
      exact fsExists_mono_set fs (w.resolve p) c _ hdir
  · refine ⟨?_, ?_, ?_, ?_⟩
    · simp [writeFile, h, hdir]
    · simp [writeFile, h, hdir]
    · simp [writeFile, h, hdir]
    · simp only [writeFile, h, hdir]
      simp [fsExists, fsIsDir]

/-- C8: on a path outside the denylisted system prefixes, two identical
`writeFile` invocations with default options both succeed, each leaves the
file holding the written content, and the second call leaves the
filesystem exactly as the first did (overwrite, not error). -/
theorem writeFile_idempotent (w : SrvWorld) (fs : FS) (p c : String)
    (h : isDangerousPath w.resolve (w.resolve p) = false) :
    (writeFile w fs (some p) (some c) {}).2.success = some true ∧
    (writeFile w (writeFile w fs (some p) (some c) {}).1
      (some p) (some c) {}).2.success = some true ∧
    lookupStr (writeFile w fs (some p) (some c) {}).1.files
      (w.resolve p) = some c ∧
    lookupStr (writeFile w (writeFile w fs (some p) (some c) {}).1
      (some p) (some c) {}).1.files (w.resolve p) = some c ∧
    (writeFile w (writeFile w fs (some p) (some c) {}).1
      (some p) (some c) {}).1 = (writeFile w fs (some p) (some c) {}).1 := by
  obtain ⟨hs1, hf1, hd1, hafter1⟩ := writeFile_state w fs p c h
  obtain ⟨hs2, hf2, hd2, _⟩ :=
    writeFile_state w (writeFile w fs (some p) (some c) {}).1 p c h
  refine ⟨hs1, hs2, ?_, ?_, ?_⟩
  · rw [hf1]; exact lookupStr_setStr_self _ _ _
  · rw [hf2, hf1, setStr_setStr]; exact lookupStr_setStr_self _ _ _
  · refine FS_ext _ _ ?_ ?_
    · rw [hf2, hf1, setStr_setStr]
    · rw [hd2, if_pos hafter1]


theorem readFile_no_executionTime (w : SrvWorld) (fs : FS)
    (p : Option String) : (readFile w fs p).executionTime = none := by
  cases p with
  | none => rfl
  | some s =>
      simp [readFile, failSrv, apply_ite SrvEnv.executionTime]

theorem writeFile_no_executionTime (w : SrvWorld) (fs : FS)
    (p c : Option String) (options : WriteOptions) :
    (writeFile w fs p c options).2.executionTime = none := by
  cases p with
  | none => rfl
  | some s =>
      cases c with
      | none =>
          simp [writeFile, failSrv, apply_ite Prod.snd,
            apply_ite SrvEnv.executionTime]
      | some c0 =>
          simp [writeFile, failSrv, apply_ite Prod.snd,
            apply_ite SrvEnv.executionTime]

theorem listDirectory_no_executionTime (w : SrvWorld) (fs : FS)
    (p : Option String) (options : ListOptions) :
    (listDirectory w fs p options).executionTime = none := by
  cases p with
  | none => rfl
  | some s =>
      simp [listDirectory, failSrv, apply_ite SrvEnv.executionTime]

theorem searchWeb_no_executionTime (w : SrvWorld) (q : Option String)
    (n : Nat) : (searchWeb w q n).executionTime = none := by
  unfold searchWeb
  repeat' split
  all_goals rfl

/-- C7 (amended): every value returned by the `/api/chat` dispatcher
`executeToolCall` carries `executionTime = Date.now() - startTime`
(integer milliseconds) on success and failure alike; the server.js
dispatcher `executeTool`, by contrast, returns handler results unchanged —
none of its returned values carries an `executionTime` field. -/
theorem dispatcher_executionTime (w : World) (name : String) (args : Args)
    (w2 : SrvWorld) (fs : FS) (name2 : String) (args2 : SrvArgs) :
    (executeToolCall w name args).executionTime =
      some (w.nowEnd - w.nowStart) ∧
    (∀ fs' r, serverExecuteTool w2 fs name2 args2 = Except.ok (fs', r) →
      r.executionTime = none) := by
  constructor
  · simp only [executeToolCall]
  · intro fs' r hr
    unfold serverExecuteTool at hr
    split at hr
    · injection hr with h; injection h with h1 h2
      exact h2 ▸ readFile_no_executionTime w2 fs args2.path
    · injection hr with h
      have h1 : (writeFile w2 fs args2.path args2.content {}).2 = r := by
        rw [h]
      rw [← h1]
      exact writeFile_no_executionTime w2 fs args2.path args2.content {}
    · simp at hr
    · injection hr with h; injection h with h1 h2
      exact h2 ▸ listDirectory_no_executionTime w2 fs args2.path {}
    · simp at hr
    · injection hr with h; injection h with h1 h2
      exact h2 ▸ rfl
    · simp at hr
    · injection hr with h; injection h with h1 h2
      exact h2 ▸ searchWeb_no_executionTime w2 args2.query
        (orFive args2.num_results)
    · injection hr with h; injection h with h1 h2
      exact h2 ▸ rfl

/-- A concrete server-side oracle world. -/
def srvWorld0 : SrvWorld :=
  { resolve := id, dirname := fun _ => "/tmp", mtime := fun _ => "t",
    now := 0, readdirItems := fun _ => [],
    execA := fun _ _ => ExecOutcome.ok "" "", home := "/root",
    httpGet := fun _ => Except.error "offline",
    ddgExtract := fun _ _ => Except.ok [], encodeURI := id }

def fs0 : FS := ⟨[], []⟩

/-- C7 counterexample: the server.js dispatcher `executeTool` returns a
value (the unknown-tool result, which is one of its normal return values)
that carries no `executionTime` — refuting the claim that every value
returned by the capability dispatcher carries an integer `executionTime`
field. -/
theorem executeTool_no_executionTime_counterexample :
    (serverExecuteTool srvWorld0 fs0 "bogus_tool" {}).map
      (fun pr => pr.2.executionTime) = Except.ok none ∧
    (serverExecuteTool srvWorld0 fs0 "bogus_tool" {}).map
      (fun pr => pr.2.error) = Except.ok (some "Unknown tool: bogus_tool") :=
  ⟨rfl, rfl⟩

/-- Witness for the amended C7 theorem at concrete inputs. -/
theorem dispatcher_executionTime_witness :
    (executeToolCall world0 "no_tool_here" {}).executionTime =
      some (world0.nowEnd - world0.nowStart) ∧
    ({ error := some "Unknown tool: other_tool" } : SrvEnv).executionTime =
      none := by
  obtain ⟨h1, h2⟩ := dispatcher_executionTime world0 "no_tool_here" {}
    srvWorld0 fs0 "other_tool" {}
  exact ⟨h1, h2 fs0 _ rfl⟩

/-- Witness for C8 at a concrete non-denylisted path. -/
theorem writeFile_idempotent_witness :
    isDangerousPath srvWorld0.resolve (srvWorld0.resolve "/tmp/hello.txt") =
      false ∧
    ((writeFile srvWorld0 fs0 (some "/tmp/hello.txt") (some "hi") {}).2.success =
        some true ∧
      (writeFile srvWorld0 (writeFile srvWorld0 fs0 (some "/tmp/hello.txt")
        (some "hi") {}).1 (some "/tmp/hello.txt") (some "hi") {}).2.success =
        some true ∧
      lookupStr (writeFile srvWorld0 fs0 (some "/tmp/hello.txt")
        (some "hi") {}).1.files (srvWorld0.resolve "/tmp/hello.txt") =
        some "hi" ∧
      lookupStr (writeFile srvWorld0 (writeFile srvWorld0 fs0
        (some "/tmp/hello.txt") (some "hi") {}).1 (some "/tmp/hello.txt")
        (some "hi") {}).1.files (srvWorld0.resolve "/tmp/hello.txt") =
        some "hi" ∧
      (writeFile srvWorld0 (writeFile srvWorld0 fs0 (some "/tmp/hello.txt")
        (some "hi") {}).1 (some "/tmp/hello.txt") (some "hi") {}).1 =
        (writeFile srvWorld0 fs0 (some "/tmp/hello.txt") (some "hi") {}).1) :=
  ⟨by decide,
    writeFile_idempotent srvWorld0 fs0 "/tmp/hello.txt" "hi" (by decide)⟩

/-- Witness for C10: a successful write of a file that did not exist
before still reports `created = false`. -/
theorem writeFile_created_false_witness :
    (writeFile srvWorld0 fs0 (some "/tmp/new.txt") (some "x") {}).2.success =
      some true ∧
    (match (writeFile srvWorld0 fs0 (some "/tmp/new.txt")
        (some "x") {}).2.payload with
      | Payload.writtenRich _ _ created => some created
      | _ => none) = some false :=
  ⟨rfl, writeFile_created_false srvWorld0 fs0 (some "/tmp/new.txt")
    (some "x") {} rfl⟩

end OpenAgent
